import Mathlib

/-!
# StereoKit audio mixer (`StereoKitC/systems/audio.cpp`)

A shallow embedding of the mixing callbacks, of the microphone start/stop
protocol and of the backend selection of `audio_init`, followed by the
properties proved about them.

Modelling conventions
* `float` values are `Flt`: an exact rational, or one of the IEEE special
  values `+inf`, `-inf`, `NaN`.  Finite arithmetic is exact (no rounding, no
  overflow to infinity); the special values follow IEEE-754 and the C
  `fminf`/`fmaxf` rules, so that `1.f / dist` at `dist = 0` is modelled as
  what the hardware does.  Signed zeros are not distinguished (`dist` is a
  magnitude, hence never `-0`).
* `sound_t` is a pointer: `Option Nat`, `none` being `nullptr`, `some p` the
  address `p` of a `_sound_t` in the heap `Nat → _sound_t`.
* `ma_uint32` counters are `Nat`: the frame counters of the chunk loops never
  exceed `frame_count`, so they cannot wrap.  The output index `int i` is a
  `Nat` as well, which describes the calls with
  `frame_count * AU_CHANNEL_COUNT < 2^31`; a write outside the buffer that is
  passed in is dropped.
* The chunk loops carry a bound on the number of iterations;
  `read_and_mix_loop_fuel` and `readDataForIsac_loop_fuel` show that the bound
  used is never the reason for leaving the loop.
* Calls into code that is outside the given sources are either parameters
  (`Env`, `MicEnv`, `InitEnv`) or are recorded in a trace of events.
-/

namespace sk

/-! ## Floating point values -/

/-- A `float`: an exact finite value or an IEEE special value. -/
inductive Flt where
  | fin (q : ℚ)
  | pinf
  | ninf
  | nan
deriving DecidableEq

namespace Flt

/-- IEEE addition: `inf + -inf` is `NaN`, `NaN` propagates. -/
def add : Flt → Flt → Flt
  | fin a, fin b => fin (a + b)
  | fin _, pinf => pinf
  | fin _, ninf => ninf
  | pinf, fin _ => pinf
  | pinf, pinf => pinf
  | ninf, fin _ => ninf
  | ninf, ninf => ninf
  | pinf, ninf => nan
  | ninf, pinf => nan
  | nan, _ => nan
  | fin _, nan => nan
  | pinf, nan => nan
  | ninf, nan => nan

/-- Multiplying an infinity of sign `pos` by the finite value `q`:
`inf * 0` is `NaN`, otherwise an infinity with the product sign. -/
def infMul (pos : Bool) (q : ℚ) : Flt :=
  if q = 0 then nan
  else if (0 < q) = pos then pinf else ninf

/-- IEEE multiplication. -/
def mul : Flt → Flt → Flt
  | fin a, fin b => fin (a * b)
  | fin a, pinf => infMul true a
  | fin a, ninf => infMul false a
  | pinf, fin b => infMul true b
  | ninf, fin b => infMul false b
  | pinf, pinf => pinf
  | ninf, ninf => pinf
  | pinf, ninf => ninf
  | ninf, pinf => ninf
  | nan, _ => nan
  | fin _, nan => nan
  | pinf, nan => nan
  | ninf, nan => nan

/-- IEEE division.  A finite non-zero value divided by zero is an infinity,
`0 / 0` and `inf / inf` are `NaN`, a finite value divided by an infinity
is zero. -/
def div : Flt → Flt → Flt
  | fin a, fin b =>
    if b = 0 then
      (if a = 0 then nan else if 0 < a then pinf else ninf)
    else fin (a / b)
  | fin _, pinf => fin 0
  | fin _, ninf => fin 0
  | pinf, fin b => if 0 ≤ b then pinf else ninf
  | ninf, fin b => if 0 ≤ b then ninf else pinf
  | pinf, pinf => nan
  | pinf, ninf => nan
  | ninf, pinf => nan
  | ninf, ninf => nan
  | nan, _ => nan
  | fin _, nan => nan
  | pinf, nan => nan
  | ninf, nan => nan

/-- Division with the zero divisor made explicit: `none` is the
divide-by-zero branch, otherwise the IEEE quotient. -/
def divChecked (a b : Flt) : Option Flt :=
  if b = fin 0 then none else some (div a b)

/-- C `fminf`: when exactly one argument is `NaN` the other one is returned. -/
def fminf : Flt → Flt → Flt
  | nan, y => y
  | fin a, nan => fin a
  | pinf, nan => pinf
  | ninf, nan => ninf
  | ninf, fin _ => ninf
  | ninf, pinf => ninf
  | ninf, ninf => ninf
  | fin _, ninf => ninf
  | pinf, ninf => ninf
  | pinf, fin b => fin b
  | pinf, pinf => pinf
  | fin a, pinf => fin a
  | fin a, fin b => fin (min a b)

/-- C `fmaxf`: when exactly one argument is `NaN` the other one is returned. -/
def fmaxf : Flt → Flt → Flt
  | nan, y => y
  | fin a, nan => fin a
  | pinf, nan => pinf
  | ninf, nan => ninf
  | pinf, fin _ => pinf
  | pinf, pinf => pinf
  | pinf, ninf => pinf
  | fin _, pinf => pinf
  | ninf, pinf => pinf
  | ninf, fin b => fin b
  | ninf, ninf => ninf
  | fin a, ninf => fin a
  | fin a, fin b => fin (max a b)

/-- A finite sample inside the closed interval `[-1, 1]`. -/
def InUnit (x : Flt) : Prop :=
  ∃ q : ℚ, x = fin q ∧ -1 ≤ q ∧ q ≤ 1

end Flt

/-! ## Data model (`sound.h`, and the uses made of `sound_inst_t`) -/

/-- The `vec3` of `stereokit.h`; coordinates are exact. -/
structure vec3 where
  x : ℚ
  y : ℚ
  z : ℚ
deriving DecidableEq

/-- Subtraction of `vec3`, as in `inst.position - head_pos`. -/
def vec3.sub (a b : vec3) : vec3 :=
  ⟨a.x - b.x, a.y - b.y, a.z - b.z⟩

/-- The `ring_buffer_t` of `sound.h`.  `data` holds the `capacity` floats the
pointer refers to. -/
structure ring_buffer_t where
  data : List Flt
  capacity : Nat
  cursor : Nat
  start : Nat
  count : Nat

/-- The enum `sound_type_` of `sound.h`. -/
inductive sound_type_ where
  | sound_type_none
  | sound_type_decode
  | sound_type_buffer
  | sound_type_stream
deriving DecidableEq

/-- Modelled from the spec: `ma_decoder` is a type of the miniaudio library,
whose source is not given.  Following the decoder contract of the spec
(`read_pcm` returns the frames read, fewer than requested signalling the end
of the stream) a decoder is the interleaved samples it has not delivered
yet. -/
structure ma_decoder where
  pcm : List Flt

/-- The struct `_sound_t` of `sound.h` (the asset header and the mutex are not
modelled: the embedding is single threaded). -/
structure _sound_t where
  type : sound_type_
  decoder : ma_decoder
  buffer : ring_buffer_t

/-- The struct `sound_inst_t`: the three fields `audio.cpp` uses.  `sound` is the
`sound_t` pointer, `none` for `nullptr`. -/
structure sound_inst_t where
  sound : Option Nat
  position : vec3
  volume : Flt

/-- What `audio.cpp` takes from headers that are not among the sources. -/
structure Env where
  /-- The constant `AU_CHANNEL_COUNT` of `audio.h`. -/
  AU_CHANNEL_COUNT : Nat
  /-- The function `vec3_magnitude` of `sk_math.h`. -/
  vec3_magnitude : vec3 → Flt
  /-- The listener position `input_head()->position`. -/
  head_pos : vec3
  /-- The map `matrix_mul_point(au_head_transform, ·)`. -/
  head_transform_point : vec3 → vec3

/-- The globals the mixing callbacks work on.  `sounds` is the heap of
`_sound_t` objects, `released` the trace of `sound_release` calls (the
argument of each call, oldest first). -/
structure AudioState where
  sounds : Nat → _sound_t
  au_active_sounds : List sound_inst_t
  au_mix_temp : Nat → Flt
  released : List Nat

/-! ## Reading samples -/

/-- Writing `n` floats, the `k`-th being `src k`, to the start of a float
array (`memcpy` into `au_mix_temp`, or what a reader stores there). -/
def store_floats (dst : Nat → Flt) (n : Nat) (src : Nat → Flt) : Nat → Flt :=
  fun k => if k < n then src k else dst k

/-- Modelled from the spec: `ma_decoder_read_pcm_frames` belongs to the
miniaudio library.  It delivers `min(frame_count, frames left)` frames of
`ch` interleaved samples each and returns that number. -/
def ma_decoder_read_pcm_frames (ch : Nat) (d : ma_decoder) (out : Nat → Flt)
    (frame_count : Nat) : Nat × (Nat → Flt) × ma_decoder :=
  let frames := min frame_count (d.pcm.length / ch)
  (frames,
   store_floats out (frames * ch) (fun k => d.pcm.getD k (Flt.fin 0)),
   { pcm := d.pcm.drop (frames * ch) })

/-- Modelled from the spec: `ring_buffer_read` is defined in `sound.cpp`,
which is not among the sources.  It copies `min(out_data_size, count)`
samples out, oldest first, advances the read position and returns the number
of samples copied. -/
def ring_buffer_read (b : ring_buffer_t) (out : Nat → Flt) (out_data_size : Nat) :
    Nat × (Nat → Flt) × ring_buffer_t :=
  let n := min out_data_size b.count
  (n,
   store_floats out n (fun k => b.data.getD ((b.start + k) % b.capacity) (Flt.fin 0)),
   { b with start := (b.start + n) % b.capacity, count := b.count - n })

/-- The function `mini` of `sk_math.h`, on the non-negative values it is used with. -/
def mini (a b : Nat) : Nat := min a b

/-- The `switch (inst.sound->type)` of `read_and_mix_pcm_frames_f32` (lines
51-65) and of `readDataForIsac` (lines 125-139): fills `au_mix_temp` from the
sound and yields `frames_read`.  A `sound_type_none` sound matches no case
and leaves `frames_read = 0`. -/
def read_frames (env : Env) (snd : _sound_t) (au_mix_temp : Nat → Flt)
    (frames_to_read : Nat) : Nat × (Nat → Flt) × _sound_t :=
  match snd.type with
  | .sound_type_decode =>
    let r := ma_decoder_read_pcm_frames env.AU_CHANNEL_COUNT snd.decoder au_mix_temp
      frames_to_read
    (r.1, r.2.1, { snd with decoder := r.2.2 })
  | .sound_type_stream =>
    let r := ring_buffer_read snd.buffer au_mix_temp frames_to_read
    (r.1, r.2.1, { snd with buffer := r.2.2 })
  | .sound_type_buffer =>
    let frames_read := mini frames_to_read (snd.buffer.count - snd.buffer.cursor)
    (frames_read,
     store_floats au_mix_temp frames_read
       (fun k => snd.buffer.data.getD (snd.buffer.cursor + k) (Flt.fin 0)),
     { snd with buffer := { snd.buffer with cursor := snd.buffer.cursor + frames_read } })
  | .sound_type_none => (0, au_mix_temp, snd)

/-! ## `read_and_mix_pcm_frames_f32` -/

/-- Lines 69-70: `dist = vec3_magnitude(inst.position - head_pos)` and
`volume = fminf(1, (1.f / dist) * inst.volume)`. -/
def mix_volume (env : Env) (inst : sound_inst_t) : Flt :=
  let dist := env.vec3_magnitude (inst.position.sub env.head_pos)
  Flt.fminf (Flt.fin 1) (Flt.mul (Flt.div (Flt.fin 1) dist) inst.volume)

/-- Lines 69-70 with the division guarded: `none` when `1.f / dist` divides
by zero. -/
def mix_volume_checked (env : Env) (inst : sound_inst_t) : Option Flt :=
  let dist := env.vec3_magnitude (inst.position.sub env.head_pos)
  (Flt.divChecked (Flt.fin 1) dist).map
    (fun q => Flt.fminf (Flt.fin 1) (Flt.mul q inst.volume))

/-- Line 76: `fmaxf(-1, fminf(1, output[i] + s))`. -/
def clip_add (o s : Flt) : Flt :=
  Flt.fmaxf (Flt.fin (-1)) (Flt.fminf (Flt.fin 1) (Flt.add o s))

/-- The `for` loop of lines 73-77, with `n` iterations left and `sample` the
loop counter; `base` is `total_frames_read * AU_CHANNEL_COUNT`. -/
def mix_samples (au_mix_temp : Nat → Flt) (volume : Flt) (base : Nat) :
    Nat → Nat → List Flt → List Flt
  | 0, _, output => output
  | n + 1, sample, output =>
    let i := base + sample
    let s := Flt.mul (au_mix_temp sample) volume
    mix_samples au_mix_temp volume base n (sample + 1)
      (output.set i (clip_add (output.getD i (Flt.fin 0)) s))

/-- The variables of the `while` loop of `read_and_mix_pcm_frames_f32`
together with the memory the loop changes. -/
structure MixVars where
  total_frames_read : Nat
  sound : _sound_t
  au_mix_temp : Nat → Flt
  output : List Flt

/-- The value `frame_cap = _countof(au_mix_temp) / AU_CHANNEL_COUNT`. -/
def frame_cap (env : Env) : Nat := 4096 / env.AU_CHANNEL_COUNT

/-- Lines 43-47: the number of frames asked for in one chunk. -/
def chunk_size (env : Env) (frame_count total_frames_read : Nat) : Nat :=
  let frames_remaining := frame_count - total_frames_read
  if frame_cap env > frames_remaining then frames_remaining else frame_cap env

/-- The `while` loop of lines 42-83.  The first argument bounds the number of
iterations; `read_and_mix_loop_fuel` shows that `frame_count` iterations are
always enough. -/
def read_and_mix_loop (env : Env) (inst : sound_inst_t) (frame_count : Nat) :
    Nat → MixVars → MixVars
  | 0, v => v
  | fuel + 1, v =>
    if v.total_frames_read < frame_count then
      let frames_to_read := chunk_size env frame_count v.total_frames_read
      let r := read_frames env v.sound v.au_mix_temp frames_to_read
      let frames_read := r.1
      if frames_read ≤ 1 then
        { v with sound := r.2.2, au_mix_temp := r.2.1 }
      else
        let volume := mix_volume env inst
        let output := mix_samples r.2.1 volume
          (v.total_frames_read * env.AU_CHANNEL_COUNT)
          (frames_read * env.AU_CHANNEL_COUNT) 0 v.output
        let v1 : MixVars :=
          { total_frames_read := v.total_frames_read + frames_read
            sound := r.2.2
            au_mix_temp := r.2.1
            output := output }
        if frames_read < frames_to_read then v1
        else read_and_mix_loop env inst frame_count fuel v1
    else v

/-- The call `read_and_mix_pcm_frames_f32(inst, output, frame_count)` for an instance
whose sound is `snd`: the result holds the returned `total_frames_read`, the
sound after the reads, the scratch buffer and the output buffer. -/
def read_and_mix_pcm_frames_f32 (env : Env) (inst : sound_inst_t) (snd : _sound_t)
    (au_mix_temp : Nat → Flt) (output : List Flt) (frame_count : Nat) : MixVars :=
  read_and_mix_loop env inst frame_count frame_count
    { total_frames_read := 0, sound := snd, au_mix_temp := au_mix_temp, output := output }

/-! ## `data_callback` -/

/-- The state of `data_callback` between two slots: the globals, and the
device output buffer. -/
structure MixerRun where
  sounds : Nat → _sound_t
  au_mix_temp : Nat → Flt
  released : List Nat
  output : List Flt

/-- The state in which `data_callback` enters its loop. -/
def MixerRun.start (s : AudioState) (output : List Flt) : MixerRun :=
  { sounds := s.sounds, au_mix_temp := s.au_mix_temp, released := s.released,
    output := output }

/-- The body of the `for` loop of `data_callback` (lines 94-101) for one
slot: the slot afterwards and the new state. -/
def data_callback_slot (env : Env) (frame_count : Nat) (inst : sound_inst_t)
    (st : MixerRun) : sound_inst_t × MixerRun :=
  match inst.sound with
  | none => (inst, st)
  | some p =>
    let r := read_and_mix_pcm_frames_f32 env inst (st.sounds p) st.au_mix_temp st.output
      frame_count
    let sounds := Function.update st.sounds p r.sound
    if r.total_frames_read < frame_count ∧ r.sound.type ≠ .sound_type_stream then
      ({ inst with sound := none },
       { sounds := sounds, au_mix_temp := r.au_mix_temp,
         released := st.released ++ [p], output := r.output })
    else
      (inst,
       { sounds := sounds, au_mix_temp := r.au_mix_temp,
         released := st.released, output := r.output })

/-- The `for` loop of `data_callback` over the slots of `au_active_sounds`,
first slot first. -/
def data_callback_loop (env : Env) (frame_count : Nat) :
    List sound_inst_t → MixerRun → List sound_inst_t × MixerRun
  | [], st => ([], st)
  | inst :: rest, st =>
    let r := data_callback_slot env frame_count inst st
    let r2 := data_callback_loop env frame_count rest r.2
    (r.1 :: r2.1, r2.2)

/-- The call `data_callback(device, output, input, frame_count)`: the globals and the
output buffer afterwards. -/
def data_callback (env : Env) (s : AudioState) (output : List Flt) (frame_count : Nat) :
    AudioState × List Flt :=
  let r := data_callback_loop env frame_count s.au_active_sounds (MixerRun.start s output)
  ({ sounds := r.2.sounds, au_active_sounds := r.1, au_mix_temp := r.2.au_mix_temp,
     released := r.2.released }, r.2.output)

/-! ## The spatial backend path: `readDataForIsac`, `isac_data_callback` -/

/-- The `memcpy` of line 143: `n` floats from the start of `au_mix_temp` to
`output[base ..]`; `sample` counts the floats copied so far. -/
def copy_samples (au_mix_temp : Nat → Flt) (base : Nat) :
    Nat → Nat → List Flt → List Flt
  | 0, _, output => output
  | n + 1, sample, output =>
    copy_samples au_mix_temp base n (sample + 1)
      (output.set (base + sample) (au_mix_temp sample))

/-- The `while` loop of `readDataForIsac` (lines 117-149), the first argument
bounding the number of iterations. -/
def readDataForIsac_loop (env : Env) (frame_count : Nat) : Nat → MixVars → MixVars
  | 0, v => v
  | fuel + 1, v =>
    if v.total_frames_read < frame_count then
      let frames_to_read := chunk_size env frame_count v.total_frames_read
      let r := read_frames env v.sound v.au_mix_temp frames_to_read
      let frames_read := r.1
      if frames_read ≤ 1 then
        { v with sound := r.2.2, au_mix_temp := r.2.1 }
      else
        let output := copy_samples r.2.1 (v.total_frames_read * env.AU_CHANNEL_COUNT)
          (frames_read * env.AU_CHANNEL_COUNT) 0 v.output
        let v1 : MixVars :=
          { total_frames_read := v.total_frames_read + frames_read
            sound := r.2.2
            au_mix_temp := r.2.1
            output := output }
        if frames_read < frames_to_read then v1
        else readDataForIsac_loop env frame_count fuel v1
    else v

/-- What the spatial backend hands over for one source and gets back:
`sourceBuffers[i]`, `positions[i]` and `volumes[i]`. -/
structure IsacSource where
  buffer : List Flt
  position : vec3
  volume : Flt

/-- The call `readDataForIsac(inst, output, frame_count, position, volume)`
for an instance whose sound is `snd`: the loop result, and the position and
volume reported to the backend. -/
def readDataForIsac (env : Env) (inst : sound_inst_t) (snd : _sound_t)
    (au_mix_temp : Nat → Flt) (output : List Flt) (frame_count : Nat) :
    MixVars × vec3 × Flt :=
  (readDataForIsac_loop env frame_count frame_count
     { total_frames_read := 0, sound := snd, au_mix_temp := au_mix_temp, output := output },
   env.head_transform_point inst.position, inst.volume)

/-- The globals `isac_data_callback` works on, between two slots. -/
structure IsacRun where
  sounds : Nat → _sound_t
  au_mix_temp : Nat → Flt
  released : List Nat

/-- The state in which `isac_data_callback` enters its loop. -/
def IsacRun.start (s : AudioState) : IsacRun :=
  { sounds := s.sounds, au_mix_temp := s.au_mix_temp, released := s.released }

/-- The body of the `for` loop of `isac_data_callback` (lines 162-169) for
slot `i`, given with `sourceBuffers[i]`, `positions[i]`, `volumes[i]`. -/
def isac_data_callback_slot (env : Env) (numFrames : Nat) (inst : sound_inst_t)
    (src : IsacSource) (st : IsacRun) : sound_inst_t × IsacSource × IsacRun :=
  match inst.sound with
  | none => (inst, src, st)
  | some p =>
    let r := readDataForIsac env inst (st.sounds p) st.au_mix_temp src.buffer numFrames
    let sounds := Function.update st.sounds p r.1.sound
    let src1 : IsacSource := { buffer := r.1.output, position := r.2.1, volume := r.2.2 }
    if r.1.total_frames_read < numFrames ∧ r.1.sound.type ≠ .sound_type_stream then
      ({ inst with sound := none }, src1,
       { sounds := sounds, au_mix_temp := r.1.au_mix_temp,
         released := st.released ++ [p] })
    else
      (inst, src1,
       { sounds := sounds, au_mix_temp := r.1.au_mix_temp, released := st.released })

/-- The `for` loop of `isac_data_callback`; slot `i` comes paired with the
`i`-th source of the backend (`numSources == _countof(au_active_sounds)`). -/
def isac_data_callback_loop (env : Env) (numFrames : Nat) :
    List (sound_inst_t × IsacSource) → IsacRun →
      List (sound_inst_t × IsacSource) × IsacRun
  | [], st => ([], st)
  | (inst, src) :: rest, st =>
    let r := isac_data_callback_slot env numFrames inst src st
    let r2 := isac_data_callback_loop env numFrames rest r.2.2
    ((r.1, r.2.1) :: r2.1, r2.2)

/-- The call `isac_data_callback(sourceBuffers, numSources, numFrames,
positions, volumes)`: the globals afterwards and what each source received. -/
def isac_data_callback (env : Env) (s : AudioState) (sources : List IsacSource)
    (numFrames : Nat) : AudioState × List IsacSource :=
  let r := isac_data_callback_loop env numFrames (s.au_active_sounds.zip sources)
    (IsacRun.start s)
  ({ sounds := r.2.sounds, au_active_sounds := r.1.map Prod.fst,
     au_mix_temp := r.2.au_mix_temp, released := r.2.released }, r.1.map Prod.snd)

/-! ## Microphone capture: `mic_start`, `mic_stop` -/

/-- The two fields of `ma_device_info` that `mic_start` reads. -/
structure ma_device_info where
  name : String
  id : Nat
deriving DecidableEq

/-- Calls into the device layer of miniaudio and into the asset system, in
the order they are made.  `device_init id ok` is `ma_device_init` for the
capture device `id` (`none`: `pDeviceID == nullptr`, the default device) and
whether it returned `MA_SUCCESS`. -/
inductive MicEvent where
  | device_init (id : Option Nat) (ok : Bool)
  | device_start (ok : Bool)
  | device_stop
  | device_uninit
  | create_stream (handle : Nat)
deriving DecidableEq

/-- What the device layer answers during one `mic_start` call. -/
structure MicEnv where
  /-- The devices listed by `ma_context_get_devices`; `none` when that call
  does not return `MA_SUCCESS`. -/
  capture_devices : Option (List ma_device_info)
  /-- Whether `ma_device_init` succeeds for a device id. -/
  device_init_ok : Option Nat → Bool
  /-- Whether `ma_device_start` succeeds. -/
  device_start_ok : Bool
  /-- The handle `sound_create_stream` returns. -/
  new_stream : Nat

/-- The microphone globals of `audio.cpp`.  `au_mic_device` is `none` for a
zeroed `ma_device` and `some id` for a device opened by `ma_device_init`;
`events` is the trace of external calls. -/
structure MicState where
  au_mic_name : Option String
  au_recording : Bool
  au_mic_sound : Option Nat
  au_mic_device : Option (Option Nat)
  events : List MicEvent
deriving DecidableEq

/-- The function `mic_stop` (lines 264-271). -/
def mic_stop (s : MicState) : MicState :=
  { s with
    au_mic_name := none
    au_mic_device := none
    au_recording := false
    events := s.events ++ [MicEvent.device_stop, MicEvent.device_uninit] }

/-- Lines 222-235 of `mic_start`: the device id looked up for the name.  The
outer `none` is the `return nullptr` of a failed enumeration; `some none` is
`id == nullptr`, reached for a null name and for a name no device carries. -/
def mic_find_id (env : MicEnv) (device_name : Option String) : Option (Option Nat) :=
  match device_name with
  | none => some none
  | some name =>
    match env.capture_devices with
    | none => none
    | some devices => some ((devices.find? (fun d => d.name = name)).map (fun d => d.id))

/-- Lines 217-259 of `mic_start`: what follows the check for a microphone
that is already recording. -/
def mic_start_open (env : MicEnv) (device_name : Option String) (s : MicState) :
    Option Nat × MicState :=
  let s1 : MicState := { s with au_mic_name := device_name }
  match mic_find_id env device_name with
  | none => (none, s1)
  | some id =>
    if env.device_init_ok id then
      let s2 : MicState :=
        { s1 with
          au_mic_device := some id
          events := s1.events ++
            [MicEvent.device_init id true, MicEvent.device_start env.device_start_ok] }
      let s3 : MicState :=
        if s2.au_mic_sound = none then
          { s2 with
            au_mic_sound := some env.new_stream
            events := s2.events ++ [MicEvent.create_stream env.new_stream] }
        else s2
      (s3.au_mic_sound, { s3 with au_recording := true })
    else
      (none, { s1 with events := s1.events ++ [MicEvent.device_init id false] })

/-- The function `mic_start(device_name)`: the returned `sound_t` and the
globals afterwards. -/
def mic_start (env : MicEnv) (device_name : Option String) (s : MicState) :
    Option Nat × MicState :=
  if s.au_recording then
    match device_name with
    | none =>
      if s.au_mic_name = none then (s.au_mic_sound, s)
      else mic_start_open env device_name (mic_stop s)
    | some name =>
      if s.au_mic_name = some name then (s.au_mic_sound, s)
      else mic_start_open env device_name (mic_stop s)
  else mic_start_open env device_name s

/-- The number of capture devices a trace shows being opened: its successful
`ma_device_init` calls. -/
def devices_opened (events : List MicEvent) : Nat :=
  (events.filter (fun e =>
    match e with
    | MicEvent.device_init _ ok => ok
    | _ => false)).length

/-! ## Backend selection: `audio_init` -/

/-- The `HRESULT` of `isac_adapter->Activate(isac_data_callback)`, by the
three cases `audio_init` tells apart: `SUCCEEDED(hr)`, `hr ==
E_NOT_VALID_STATE` (not supported on this device), any other failure. -/
inductive IsacResult where
  | succeeded
  | not_valid_state
  | failed
deriving DecidableEq

/-- What the build and the libraries answer during one `audio_init` call. -/
structure InitEnv where
  /-- Whether `SK_OS_WINDOWS` or `SK_OS_WINDOWS_UWP` is defined, that is,
  whether lines 282-294 are compiled in. -/
  windows : Bool
  /-- Whether `ma_context_init` returns `MA_SUCCESS`. -/
  context_init_ok : Bool
  /-- The result of `isac_adapter->Activate`. -/
  isac_activate : IsacResult
  /-- Whether `ma_device_init` of the playback device returns `MA_SUCCESS`. -/
  device_init_ok : Bool
  /-- Whether `ma_device_start` of the playback device returns `MA_SUCCESS`. -/
  device_start_ok : Bool

/-- The playback device `au_device` as the device layer sees it. -/
inductive PlaybackDevice where
  | uninitialised
  | initialised
  | started
deriving DecidableEq

/-- The external calls of `audio_init`, in the order they are made. -/
inductive InitEvent where
  | context_init (ok : Bool)
  | isac_new
  | isac_activate (result : IsacResult)
  | isac_delete
  | device_init (ok : Bool)
  | device_start (ok : Bool)
  | device_uninit
deriving DecidableEq

/-- The globals `audio_init` works on.  `isac_adapter` is `none` for
`nullptr` (and on builds without the spatial backend), `some activated` for
an adapter object, `activated` telling whether its `Activate` succeeded. -/
structure PlaybackState where
  isac_adapter : Option Bool
  au_device : PlaybackDevice
  au_mic_name : Option String
  events : List InitEvent
deriving DecidableEq

/-- Lines 297-318 of `audio_init`: opening and starting the generic playback
device bound to `data_callback`. -/
def audio_init_generic (env : InitEnv) (s : PlaybackState) : Bool × PlaybackState :=
  if env.device_init_ok then
    let s1 : PlaybackState :=
      { s with
        au_device := PlaybackDevice.initialised
        events := s.events ++ [InitEvent.device_init true] }
    if env.device_start_ok then
      (true,
       { s1 with
         au_device := PlaybackDevice.started
         au_mic_name := none
         events := s1.events ++ [InitEvent.device_start true] })
    else
      (false,
       { s1 with
         au_device := PlaybackDevice.uninitialised
         events := s1.events ++ [InitEvent.device_start false, InitEvent.device_uninit] })
  else
    (false, { s with events := s.events ++ [InitEvent.device_init false] })

/-- The function `audio_init` (lines 275-319): the returned `bool` and the
globals afterwards. -/
def audio_init (env : InitEnv) (s : PlaybackState) : Bool × PlaybackState :=
  if env.context_init_ok then
    let s0 : PlaybackState :=
      { s with events := s.events ++ [InitEvent.context_init true] }
    if env.windows then
      let s1 : PlaybackState :=
        { s0 with
          isac_adapter := some false
          events := s0.events ++ [InitEvent.isac_new] }
      match env.isac_activate with
      | IsacResult.succeeded =>
        (true,
         { s1 with
           isac_adapter := some true
           events := s1.events ++ [InitEvent.isac_activate IsacResult.succeeded] })
      | result =>
        audio_init_generic env
          { s1 with
            isac_adapter := none
            events := s1.events ++ [InitEvent.isac_activate result, InitEvent.isac_delete] }
    else audio_init_generic env s0
  else
    (false, { s with events := s.events ++ [InitEvent.context_init false] })

/-- The spatial backend path is active: an activated adapter exists. -/
def isac_active (s : PlaybackState) : Prop := s.isac_adapter = some true

/-- The generic path is active: the playback device is opened and started. -/
def generic_active (s : PlaybackState) : Prop := s.au_device = PlaybackDevice.started

/-- The globals at program start: no adapter, a zeroed `au_device`, no call
made yet. -/
def playbackStart : PlaybackState :=
  { isac_adapter := none
    au_device := PlaybackDevice.uninitialised
    au_mic_name := none
    events := [] }

/-! ## The read requests of the chunk loops -/

/-- One read request of a chunk loop (the `switch` of lines 51-65 or
125-139): the value of `total_frames_read` when it is made, the number of
frames asked for, the number of frames the source delivered, and the
`frames_read * AU_CHANNEL_COUNT` floats found in `au_mix_temp` after the
read, which are the samples the loop goes on to use. -/
structure ChunkRead where
  total_frames_read : Nat
  frames_to_read : Nat
  frames_read : Nat
  samples : List Flt
deriving DecidableEq

/-- The request made by one iteration, and what came back. -/
def ChunkRead.of (env : Env) (frame_count : Nat) (v : MixVars) : ChunkRead :=
  let frames_to_read := chunk_size env frame_count v.total_frames_read
  let r := read_frames env v.sound v.au_mix_temp frames_to_read
  { total_frames_read := v.total_frames_read
    frames_to_read := frames_to_read
    frames_read := r.1
    samples := (List.range (r.1 * env.AU_CHANNEL_COUNT)).map r.2.1 }

/-- The samples read by a sequence of requests, first request first. -/
def samples_read : List ChunkRead → List Flt
  | [] => []
  | r :: rest => r.samples ++ samples_read rest

/-- The `while` loop of `read_and_mix_pcm_frames_f32` that also lists the read
requests it makes: `read_and_mix_trace_fst` shows that its first component
is `read_and_mix_loop`. -/
def read_and_mix_trace (env : Env) (inst : sound_inst_t) (frame_count : Nat) :
    Nat → MixVars → MixVars × List ChunkRead
  | 0, v => (v, [])
  | fuel + 1, v =>
    if v.total_frames_read < frame_count then
      let frames_to_read := chunk_size env frame_count v.total_frames_read
      let r := read_frames env v.sound v.au_mix_temp frames_to_read
      let frames_read := r.1
      if frames_read ≤ 1 then
        ({ v with sound := r.2.2, au_mix_temp := r.2.1 }, [ChunkRead.of env frame_count v])
      else
        let volume := mix_volume env inst
        let output := mix_samples r.2.1 volume
          (v.total_frames_read * env.AU_CHANNEL_COUNT)
          (frames_read * env.AU_CHANNEL_COUNT) 0 v.output
        let v1 : MixVars :=
          { total_frames_read := v.total_frames_read + frames_read
            sound := r.2.2
            au_mix_temp := r.2.1
            output := output }
        if frames_read < frames_to_read then (v1, [ChunkRead.of env frame_count v])
        else
          ((read_and_mix_trace env inst frame_count fuel v1).1,
           ChunkRead.of env frame_count v ::
             (read_and_mix_trace env inst frame_count fuel v1).2)
    else (v, [])

/-- The `while` loop of `readDataForIsac` that also lists the read requests
it makes: `readDataForIsac_trace_fst` shows that its first component is
`readDataForIsac_loop`. -/
def readDataForIsac_trace (env : Env) (frame_count : Nat) :
    Nat → MixVars → MixVars × List ChunkRead
  | 0, v => (v, [])
  | fuel + 1, v =>
    if v.total_frames_read < frame_count then
      let frames_to_read := chunk_size env frame_count v.total_frames_read
      let r := read_frames env v.sound v.au_mix_temp frames_to_read
      let frames_read := r.1
      if frames_read ≤ 1 then
        ({ v with sound := r.2.2, au_mix_temp := r.2.1 }, [ChunkRead.of env frame_count v])
      else
        let output := copy_samples r.2.1 (v.total_frames_read * env.AU_CHANNEL_COUNT)
          (frames_read * env.AU_CHANNEL_COUNT) 0 v.output
        let v1 : MixVars :=
          { total_frames_read := v.total_frames_read + frames_read
            sound := r.2.2
            au_mix_temp := r.2.1
            output := output }
        if frames_read < frames_to_read then (v1, [ChunkRead.of env frame_count v])
        else
          ((readDataForIsac_trace env frame_count fuel v1).1,
           ChunkRead.of env frame_count v :: (readDataForIsac_trace env frame_count fuel v1).2)
    else (v, [])

/-- The read requests `read_and_mix_pcm_frames_f32` makes, in order. -/
def read_and_mix_reads (env : Env) (inst : sound_inst_t) (snd : _sound_t)
    (au_mix_temp : Nat → Flt) (output : List Flt) (frame_count : Nat) : List ChunkRead :=
  (read_and_mix_trace env inst frame_count frame_count
    { total_frames_read := 0, sound := snd, au_mix_temp := au_mix_temp,
      output := output }).2

/-- The read requests `readDataForIsac` makes, in order. -/
def readDataForIsac_reads (env : Env) (snd : _sound_t) (au_mix_temp : Nat → Flt)
    (output : List Flt) (frame_count : Nat) : List ChunkRead :=
  (readDataForIsac_trace env frame_count frame_count
    { total_frames_read := 0, sound := snd, au_mix_temp := au_mix_temp,
      output := output }).2

/-! ## Notions used to state the properties -/

/-- The state in which `data_callback` reaches the slot that comes after the
slots `pre` of the pool. -/
def reached (env : Env) (frame_count : Nat) (pre : List sound_inst_t) (s : AudioState)
    (output : List Flt) : MixerRun :=
  (data_callback_loop env frame_count pre (MixerRun.start s output)).2

/-- The value of `framesRead` (line 97) for the slot `inst` that comes after
the slots `pre`: what `read_and_mix_pcm_frames_f32` returns for it. -/
def framesRead (env : Env) (frame_count : Nat) (pre : List sound_inst_t) (inst : sound_inst_t)
    (p : Nat) (s : AudioState) (output : List Flt) : Nat :=
  (read_and_mix_pcm_frames_f32 env inst ((reached env frame_count pre s output).sounds p)
    (reached env frame_count pre s output).au_mix_temp
    (reached env frame_count pre s output).output frame_count).total_frames_read

/-- An output buffer of `n` silent samples. -/
def silence (n : Nat) : List Flt := List.replicate n (Flt.fin 0)

/-- The value of a finite `float`; `0` for the special values. -/
def Flt.toRat : Flt → ℚ
  | Flt.fin q => q
  | _ => 0

/-- What the slot `inst` alone mixes into a silent buffer of `n` samples when
the sounds are in the state they have in `s`: its contribution to each
output sample. -/
def solo (env : Env) (frame_count : Nat) (s : AudioState) (n : Nat) (inst : sound_inst_t) :
    List Flt :=
  (data_callback_slot env frame_count inst (MixerRun.start s (silence n))).2.output

/-! ## Concrete data used by the examples -/

/-- An environment for the examples: mono output and the listener at the
origin.  The magnitude is evaluated as `|x| + |y| + |z|`, which is the
Euclidean length of every vector on a coordinate axis; the examples place
their instances on the x axis. -/
def axisEnv : Env :=
  { AU_CHANNEL_COUNT := 1
    vec3_magnitude := fun v => Flt.fin (|v.x| + |v.y| + |v.z|)
    head_pos := ⟨0, 0, 0⟩
    head_transform_point := fun v => v }

/-- An instance of sound `p` on the x axis, at distance `d` from the origin. -/
def instAt (p : Nat) (d : ℚ) (volume : ℚ) : sound_inst_t :=
  { sound := some p, position := ⟨d, 0, 0⟩, volume := Flt.fin volume }

/-- An empty slot of the pool. -/
def emptySlot : sound_inst_t :=
  { sound := none, position := ⟨0, 0, 0⟩, volume := Flt.fin 0 }

/-- A Buffer-variant sound holding the given samples, not yet played. -/
def bufferSound (samples : List ℚ) : _sound_t :=
  { type := sound_type_.sound_type_buffer
    decoder := { pcm := [] }
    buffer :=
      { data := samples.map Flt.fin
        capacity := samples.length
        cursor := 0
        start := 0
        count := samples.length } }

/-- A Stream-variant sound whose ring buffer holds the given unread samples. -/
def streamSound (samples : List ℚ) : _sound_t :=
  { type := sound_type_.sound_type_stream
    decoder := { pcm := [] }
    buffer :=
      { data := samples.map Flt.fin
        capacity := samples.length
        cursor := 0
        start := 0
        count := samples.length } }

/-- A heap holding the listed sounds at the addresses `0, 1, ...`. -/
def heapOf (sounds : List _sound_t) : Nat → _sound_t :=
  fun p => sounds.getD p (bufferSound [])

/-- The globals with the given heap and pool, a zeroed scratch buffer and no
release recorded. -/
def audioState (sounds : List _sound_t) (slots : List sound_inst_t) : AudioState :=
  { sounds := heapOf sounds
    au_active_sounds := slots
    au_mix_temp := fun _ => Flt.fin 0
    released := [] }

/-- A pool of eight slots whose first slot plays a one-frame buffer at
distance `1` with volume `1`. -/
def oneFramePool : AudioState :=
  audioState [bufferSound [1 / 2]]
    [instAt 0 1 1, emptySlot, emptySlot, emptySlot, emptySlot, emptySlot, emptySlot,
      emptySlot]

/-- A pool of eight slots whose first slot plays a two-frame buffer at
distance `1` with volume `1`. -/
def twoFramePool : AudioState :=
  audioState [bufferSound [1 / 2, 1 / 2]]
    [instAt 0 1 1, emptySlot, emptySlot, emptySlot, emptySlot, emptySlot, emptySlot,
      emptySlot]

/-- A pool of eight slots whose first slot plays a stream with an empty
(starved) ring buffer. -/
def starvedPool : AudioState :=
  audioState [streamSound []]
    [instAt 0 1 1, emptySlot, emptySlot, emptySlot, emptySlot, emptySlot, emptySlot,
      emptySlot]

/-- The microphone globals at program start: nothing recorded, no device. -/
def idleMic : MicState :=
  { au_mic_name := none
    au_recording := false
    au_mic_sound := none
    au_mic_device := none
    events := [] }

/-- A device layer with one capture device, named "Mic A", on which every
`ma_device_init` succeeds; `startOk` is the result of `ma_device_start`. -/
def oneMicEnv (startOk : Bool) : MicEnv :=
  { capture_devices := some [{ name := "Mic A", id := 1 }]
    device_init_ok := fun _ => true
    device_start_ok := startOk
    new_stream := 7 }

/-- Three two-frame buffers with the samples `1, 1`, `1, 1` and `-1, -1`,
played at distance `1` with volume `1` (attenuation `1`) from the slots in
the order given by `order`; the other five slots are empty. -/
def clipPool (order : List Nat) : AudioState :=
  audioState [bufferSound [1, 1], bufferSound [1, 1], bufferSound [-1, -1]]
    (order.map (fun p => instAt p 1 1) ++
      [emptySlot, emptySlot, emptySlot, emptySlot, emptySlot])

/-- Two two-frame buffers with the samples `1/4, 1/4` and `1/2, 1/2`, played
at distance `1` with volume `1` from the slots in the order given by
`order`; the other six slots are empty. -/
def quietPool (order : List Nat) : AudioState :=
  audioState [bufferSound [1 / 4, 1 / 4], bufferSound [1 / 2, 1 / 2]]
    (order.map (fun p => instAt p 1 1) ++
      [emptySlot, emptySlot, emptySlot, emptySlot, emptySlot, emptySlot])

/-- The environment `axisEnv` with two channels instead of one. -/
def stereoEnv : Env := { axisEnv with AU_CHANNEL_COUNT := 2 }

/-- A Decode-variant sound whose decoder still has the given samples. -/
def decodeSound (samples : List ℚ) : _sound_t :=
  { type := sound_type_.sound_type_decode
    decoder := { pcm := samples.map Flt.fin }
    buffer := { data := [], capacity := 0, cursor := 0, start := 0, count := 0 } }

/-- A decoder with two stereo frames of `1/4` and a buffer of two floats
`1/8`, played at distance `1` with volume `1` from the slots in the order
given by `order`; the other six slots are empty. -/
def stereoPool (order : List Nat) : AudioState :=
  audioState [decodeSound [1 / 4, 1 / 4, 1 / 4, 1 / 4], bufferSound [1 / 8, 1 / 8]]
    (order.map (fun p => instAt p 1 1) ++
      [emptySlot, emptySlot, emptySlot, emptySlot, emptySlot, emptySlot])

/-! # Properties -/

/-! ## The iteration bound of the chunk loops is never reached -/

/-- With `frame_count - total_frames_read` iterations allowed, the loop of
`read_and_mix_pcm_frames_f32` ends by its own exits: allowing more iterations
does not change the result. -/
theorem read_and_mix_loop_fuel (env : Env) (inst : sound_inst_t) (frame_count : Nat) :
    ∀ (fuel : Nat) (v : MixVars) (extra : Nat), frame_count - v.total_frames_read ≤ fuel →
      read_and_mix_loop env inst frame_count (fuel + extra) v =
        read_and_mix_loop env inst frame_count fuel v := by
  intro fuel
  induction fuel with
  | zero =>
    intro v extra h
    cases extra with
    | zero => rfl
    | succ e =>
      have hge : ¬ v.total_frames_read < frame_count := by omega
      simp [read_and_mix_loop, hge]
  | succ fuel ih =>
    intro v extra h
    have hadd : fuel + 1 + extra = (fuel + extra) + 1 := by omega
    rw [hadd]
    simp only [read_and_mix_loop]
    split_ifs with h1 h2 h3
    · rfl
    · rfl
    · apply ih
      show frame_count - (v.total_frames_read + _) ≤ fuel
      omega
    · rfl

/-- The same for the loop of `readDataForIsac`. -/
theorem readDataForIsac_loop_fuel (env : Env) (frame_count : Nat) :
    ∀ (fuel : Nat) (v : MixVars) (extra : Nat), frame_count - v.total_frames_read ≤ fuel →
      readDataForIsac_loop env frame_count (fuel + extra) v =
        readDataForIsac_loop env frame_count fuel v := by
  intro fuel
  induction fuel with
  | zero =>
    intro v extra h
    cases extra with
    | zero => rfl
    | succ e =>
      have hge : ¬ v.total_frames_read < frame_count := by omega
      simp [readDataForIsac_loop, hge]
  | succ fuel ih =>
    intro v extra h
    have hadd : fuel + 1 + extra = (fuel + extra) + 1 := by omega
    rw [hadd]
    simp only [readDataForIsac_loop]
    split_ifs with h1 h2 h3
    · rfl
    · rfl
    · apply ih
      show frame_count - (v.total_frames_read + _) ≤ fuel
      omega
    · rfl

/-! ## Clipping keeps the output inside `[-1, 1]` -/

theorem Flt.inUnit_clamp (x : Flt) :
    Flt.InUnit (Flt.fmaxf (Flt.fin (-1)) (Flt.fminf (Flt.fin 1) x)) := by
  cases x with
  | fin q =>
    refine ⟨max (-1) (min 1 q), ?_, le_max_left _ _, ?_⟩
    · simp [Flt.fminf, Flt.fmaxf]
    · exact max_le (by norm_num) (min_le_left _ _)
  | pinf => exact ⟨1, by simp [Flt.fminf, Flt.fmaxf], by norm_num, le_refl _⟩
  | ninf => exact ⟨-1, by simp [Flt.fminf, Flt.fmaxf], le_refl _, by norm_num⟩
  | nan => exact ⟨1, by simp [Flt.fminf, Flt.fmaxf], by norm_num, le_refl _⟩

theorem clip_add_inUnit (o s : Flt) : Flt.InUnit (clip_add o s) :=
  Flt.inUnit_clamp _

theorem set_all_inUnit (output : List Flt) (i : Nat) (v : Flt)
    (h : ∀ x ∈ output, Flt.InUnit x) (hv : Flt.InUnit v) :
    ∀ x ∈ output.set i v, Flt.InUnit x := by
  intro x hx
  rcases List.mem_or_eq_of_mem_set hx with hmem | heq
  · exact h x hmem
  · exact heq ▸ hv

theorem mix_samples_inUnit (au_mix_temp : Nat → Flt) (volume : Flt) (base n : Nat) :
    ∀ (sample : Nat) (output : List Flt), (∀ x ∈ output, Flt.InUnit x) →
      ∀ x ∈ mix_samples au_mix_temp volume base n sample output, Flt.InUnit x := by
  induction n with
  | zero => intro sample output h; simpa [mix_samples] using h
  | succ n ih =>
    intro sample output h
    simp only [mix_samples]
    exact ih _ _ (set_all_inUnit _ _ _ h (clip_add_inUnit _ _))

theorem mix_samples_length (au_mix_temp : Nat → Flt) (volume : Flt) (base n : Nat) :
    ∀ (sample : Nat) (output : List Flt),
      (mix_samples au_mix_temp volume base n sample output).length = output.length := by
  induction n with
  | zero => intro sample output; simp [mix_samples]
  | succ n ih => intro sample output; simp [mix_samples, ih]

theorem read_and_mix_loop_inUnit (env : Env) (inst : sound_inst_t) (frame_count fuel : Nat) :
    ∀ v : MixVars, (∀ x ∈ v.output, Flt.InUnit x) →
      ∀ x ∈ (read_and_mix_loop env inst frame_count fuel v).output, Flt.InUnit x := by
  induction fuel with
  | zero => intro v h; simpa [read_and_mix_loop] using h
  | succ fuel ih =>
    intro v h
    simp only [read_and_mix_loop]
    split_ifs
    · exact h
    · exact mix_samples_inUnit _ _ _ _ _ _ h
    · exact ih _ (mix_samples_inUnit _ _ _ _ _ _ h)
    · exact h

theorem read_and_mix_loop_length (env : Env) (inst : sound_inst_t) (frame_count fuel : Nat) :
    ∀ v : MixVars,
      (read_and_mix_loop env inst frame_count fuel v).output.length = v.output.length := by
  induction fuel with
  | zero => intro v; simp [read_and_mix_loop]
  | succ fuel ih =>
    intro v
    simp only [read_and_mix_loop]
    split_ifs
    · rfl
    · exact mix_samples_length _ _ _ _ _ _
    · rw [ih]; exact mix_samples_length _ _ _ _ _ _
    · rfl

theorem data_callback_slot_inUnit (env : Env) (frame_count : Nat) (inst : sound_inst_t)
    (st : MixerRun) (h : ∀ x ∈ st.output, Flt.InUnit x) :
    ∀ x ∈ (data_callback_slot env frame_count inst st).2.output, Flt.InUnit x := by
  unfold data_callback_slot
  cases inst.sound with
  | none => exact h
  | some p =>
    have key := read_and_mix_loop_inUnit env inst frame_count frame_count
      { total_frames_read := 0, sound := st.sounds p, au_mix_temp := st.au_mix_temp,
        output := st.output } h
    simp only [read_and_mix_pcm_frames_f32]
    split_ifs <;> exact key

theorem data_callback_slot_length (env : Env) (frame_count : Nat) (inst : sound_inst_t)
    (st : MixerRun) :
    (data_callback_slot env frame_count inst st).2.output.length = st.output.length := by
  unfold data_callback_slot
  cases inst.sound with
  | none => rfl
  | some p =>
    have key := read_and_mix_loop_length env inst frame_count frame_count
      { total_frames_read := 0, sound := st.sounds p, au_mix_temp := st.au_mix_temp,
        output := st.output }
    simp only [read_and_mix_pcm_frames_f32]
    split_ifs <;> exact key

theorem data_callback_loop_inUnit (env : Env) (frame_count : Nat) :
    ∀ (slots : List sound_inst_t) (st : MixerRun), (∀ x ∈ st.output, Flt.InUnit x) →
      ∀ x ∈ (data_callback_loop env frame_count slots st).2.output, Flt.InUnit x := by
  intro slots
  induction slots with
  | nil => intro st h; simpa [data_callback_loop] using h
  | cons inst rest ih =>
    intro st h
    simp only [data_callback_loop]
    exact ih _ (data_callback_slot_inUnit env frame_count inst st h)

theorem data_callback_loop_length (env : Env) (frame_count : Nat) :
    ∀ (slots : List sound_inst_t) (st : MixerRun),
      (data_callback_loop env frame_count slots st).2.output.length = st.output.length := by
  intro slots
  induction slots with
  | nil => intro st; simp [data_callback_loop]
  | cons inst rest ih =>
    intro st
    simp only [data_callback_loop]
    rw [ih, data_callback_slot_length]

/-- C1: whatever the slots of the pool hold (any number of them occupied),
for every `frame_count`, if every sample of the output buffer handed to
`data_callback` lies in `[-1, 1]`, then every sample of the buffer lies in
`[-1, 1]` when the callback returns, and the buffer has kept its length. -/
theorem data_callback_output_in_unit (env : Env) (s : AudioState) (output : List Flt)
    (frame_count : Nat) (h : ∀ x ∈ output, Flt.InUnit x) :
    (∀ x ∈ (data_callback env s output frame_count).2, Flt.InUnit x) ∧
      (data_callback env s output frame_count).2.length = output.length :=
  ⟨data_callback_loop_inUnit env frame_count s.au_active_sounds _ h,
   data_callback_loop_length env frame_count s.au_active_sounds _⟩

/-! ## Distance attenuation -/

/-- C3 (counterexample): an instance with volume `-1` at distance `1` from the
listener gets the attenuation factor `-1`, which is outside `[0, 1]` and
differs from `clamp(volume / max(distance, epsilon), 0, 1)` for every
`epsilon`. -/
theorem mix_volume_negative :
    mix_volume axisEnv (instAt 0 1 (-1)) = Flt.fin (-1) ∧
      ∀ ε : ℚ, mix_volume axisEnv (instAt 0 1 (-1)) ≠
        Flt.fin (max 0 (min 1 ((-1) / max 1 ε))) := by
  have h : mix_volume axisEnv (instAt 0 1 (-1)) = Flt.fin (-1) := by
    simp [mix_volume, axisEnv, instAt, vec3.sub, Flt.div, Flt.mul, Flt.fminf]
  refine ⟨h, ?_⟩
  intro ε
  rw [h]
  intro heq
  have h2 : (-1 : ℚ) = max 0 (min 1 ((-1) / max 1 ε)) := Flt.fin.inj heq
  have h3 : (0 : ℚ) ≤ max 0 (min 1 ((-1) / max 1 ε)) := le_max_left _ _
  rw [← h2] at h3
  norm_num at h3

/-- C3 (amended): for an instance at a positive distance `d` from the listener
and with volume `v`, the attenuation factor of `read_and_mix_pcm_frames_f32`
is `min(1, v / d)`, with no floor on the distance and no lower clamp: it is
at most `1`, it is non-negative when `v` is, and negative when `v` is. -/
theorem mix_volume_eq_min (env : Env) (inst : sound_inst_t) (d v : ℚ)
    (hdist : env.vec3_magnitude (inst.position.sub env.head_pos) = Flt.fin d)
    (hd : 0 < d) (hv : inst.volume = Flt.fin v) :
    mix_volume env inst = Flt.fin (min 1 (v / d)) ∧ min 1 (v / d) ≤ 1 ∧
      (0 ≤ v → 0 ≤ min 1 (v / d)) ∧ (v < 0 → min 1 (v / d) < 0) := by
  have hd0 : d ≠ 0 := ne_of_gt hd
  refine ⟨?_, min_le_left _ _, ?_, ?_⟩
  · simp only [mix_volume, hdist, hv, Flt.div, Flt.mul, Flt.fminf, if_neg hd0]
    congr 2
    field_simp
  · intro h0
    exact le_min (by norm_num) (div_nonneg h0 (le_of_lt hd))
  · intro h0
    exact lt_of_le_of_lt (min_le_right _ _) (div_neg_of_neg_of_pos h0 hd)

theorem mix_volume_eq_min_witness :
    mix_volume axisEnv (instAt 0 2 1) = Flt.fin (min 1 (1 / 2)) ∧ min 1 ((1 : ℚ) / 2) ≤ 1 ∧
      ((0 : ℚ) ≤ 1 → 0 ≤ min 1 ((1 : ℚ) / 2)) ∧ ((1 : ℚ) < 0 → min 1 ((1 : ℚ) / 2) < 0) :=
  mix_volume_eq_min axisEnv (instAt 0 2 1) 2 1
    (by simp [axisEnv, instAt, vec3.sub]) (by norm_num) rfl

/-- C4 (counterexample): an instance at the listener position with volume
`1/2`.  The guarded division reports a division by zero, and the attenuation
the code computes is `1`, not `1 x volume = 1/2`. -/
theorem mix_volume_at_listener :
    mix_volume_checked axisEnv (instAt 0 0 (1 / 2)) = none ∧
      mix_volume axisEnv (instAt 0 0 (1 / 2)) = Flt.fin 1 := by
  constructor
  · simp [mix_volume_checked, axisEnv, instAt, vec3.sub, Flt.divChecked]
  · simp [mix_volume, axisEnv, instAt, vec3.sub, Flt.div, Flt.mul, Flt.infMul, Flt.fminf]

/-- C4 (amended): when the instance position equals the listener position
(distance `0`), `1.f / dist` is evaluated with a zero divisor: the guarded
division takes its divide-by-zero branch for every volume.  In IEEE
arithmetic the quotient is `+inf`, and for every positive volume the
attenuation is then `1`. -/
theorem mix_volume_zero_distance (env : Env) (inst : sound_inst_t)
    (hmag : env.vec3_magnitude ⟨0, 0, 0⟩ = Flt.fin 0) (hpos : inst.position = env.head_pos) :
    mix_volume_checked env inst = none ∧
      ∀ v : ℚ, 0 < v → inst.volume = Flt.fin v → mix_volume env inst = Flt.fin 1 := by
  have hsub : inst.position.sub env.head_pos = ⟨0, 0, 0⟩ := by
    rw [hpos]; simp [vec3.sub]
  constructor
  · simp [mix_volume_checked, hsub, hmag, Flt.divChecked]
  · intro v hv hvol
    have hv0 : v ≠ 0 := ne_of_gt hv
    simp [mix_volume, hsub, hmag, hvol, Flt.div, Flt.mul, Flt.infMul, Flt.fminf, hv0, hv]

theorem mix_volume_zero_distance_witness :
    mix_volume_checked axisEnv (instAt 0 0 (1 / 2)) = none ∧
      ∀ v : ℚ, 0 < v → (instAt 0 0 (1 / 2)).volume = Flt.fin v →
        mix_volume axisEnv (instAt 0 0 (1 / 2)) = Flt.fin 1 :=
  mix_volume_zero_distance axisEnv (instAt 0 0 (1 / 2))
    (by simp [axisEnv]) (by simp [axisEnv, instAt])

/-! ## One-shot buffers -/

/-- C5 (evaluation at the failing input): a Buffer-variant sound holding
`L = 1` frame, played by one `data_callback` of four frames.  The chunk read
delivers exactly one frame and moves the cursor to `1 = L`, but the loop
leaves before mixing or counting it: the call returns `0` frames, the output
stays silent, and the slot is evicted. -/
theorem one_frame_buffer_dropped :
    (read_and_mix_pcm_frames_f32 axisEnv (instAt 0 1 1) (bufferSound [1 / 2])
        (fun _ => Flt.fin 0) (silence 4) 4).total_frames_read = 0 ∧
      (data_callback axisEnv oneFramePool (silence 4) 4).2 = silence 4 ∧
      ((data_callback axisEnv oneFramePool (silence 4) 4).1.sounds 0).buffer.cursor = 1 ∧
      (data_callback axisEnv oneFramePool (silence 4) 4).1.au_active_sounds.map
          (fun inst => inst.sound) = [none, none, none, none, none, none, none, none] ∧
      (data_callback axisEnv oneFramePool (silence 4) 4).1.released = [0] := by
  simp [data_callback, data_callback_loop, data_callback_slot, read_and_mix_pcm_frames_f32,
    read_and_mix_loop, read_frames, chunk_size, frame_cap, mini, oneFramePool, audioState,
    heapOf, bufferSound, instAt, emptySlot, axisEnv, silence, MixerRun.start]

theorem data_callback_output_in_unit_witness :
    (∀ x ∈ (data_callback axisEnv oneFramePool (silence 4) 4).2, Flt.InUnit x) ∧
      (data_callback axisEnv oneFramePool (silence 4) 4).2.length = (silence 4).length :=
  data_callback_output_in_unit axisEnv oneFramePool (silence 4) 4 (by
    intro x hx
    have hx0 : x = Flt.fin 0 := by simpa [silence] using hx
    exact ⟨0, hx0, by norm_num, by norm_num⟩)

/-! ## Eviction of finished sounds -/

theorem read_frames_type (env : Env) (snd : _sound_t) (tmp : Nat → Flt) (n : Nat) :
    (read_frames env snd tmp n).2.2.type = snd.type := by
  unfold read_frames
  split <;> rfl

theorem read_and_mix_loop_type (env : Env) (inst : sound_inst_t) (frame_count fuel : Nat) :
    ∀ v : MixVars,
      (read_and_mix_loop env inst frame_count fuel v).sound.type = v.sound.type := by
  induction fuel with
  | zero => intro v; rfl
  | succ fuel ih =>
    intro v
    simp only [read_and_mix_loop]
    split_ifs
    · exact read_frames_type _ _ _ _
    · exact read_frames_type _ _ _ _
    · rw [ih]; exact read_frames_type _ _ _ _
    · rfl

theorem read_and_mix_type (env : Env) (inst : sound_inst_t) (snd : _sound_t)
    (tmp : Nat → Flt) (output : List Flt) (frame_count : Nat) :
    (read_and_mix_pcm_frames_f32 env inst snd tmp output frame_count).sound.type = snd.type :=
  read_and_mix_loop_type env inst frame_count frame_count _

theorem data_callback_slot_type (env : Env) (frame_count : Nat) (inst : sound_inst_t)
    (st : MixerRun) (q : Nat) :
    ((data_callback_slot env frame_count inst st).2.sounds q).type = (st.sounds q).type := by
  unfold data_callback_slot
  cases inst.sound with
  | none => rfl
  | some p =>
    have key : (Function.update st.sounds p
        (read_and_mix_pcm_frames_f32 env inst (st.sounds p) st.au_mix_temp st.output
          frame_count).sound q).type = (st.sounds q).type := by
      by_cases hq : q = p
      · subst hq
        rw [Function.update_same]
        exact read_and_mix_type _ _ _ _ _ _
      · rw [Function.update_noteq hq]
    simp only
    split_ifs <;> exact key

theorem data_callback_loop_type (env : Env) (frame_count : Nat) (q : Nat) :
    ∀ (slots : List sound_inst_t) (st : MixerRun),
      ((data_callback_loop env frame_count slots st).2.sounds q).type = (st.sounds q).type := by
  intro slots
  induction slots with
  | nil => intro st; rfl
  | cons inst rest ih =>
    intro st
    simp only [data_callback_loop]
    rw [ih, data_callback_slot_type]

theorem data_callback_loop_append (env : Env) (frame_count : Nat) :
    ∀ (pre post : List sound_inst_t) (st : MixerRun),
      data_callback_loop env frame_count (pre ++ post) st =
        ((data_callback_loop env frame_count pre st).1 ++
          (data_callback_loop env frame_count post
            (data_callback_loop env frame_count pre st).2).1,
         (data_callback_loop env frame_count post
            (data_callback_loop env frame_count pre st).2).2) := by
  intro pre
  induction pre with
  | nil => intro post st; simp [data_callback_loop]
  | cons inst rest ih =>
    intro post st
    show data_callback_loop env frame_count (inst :: (rest ++ post)) st = _
    simp only [data_callback_loop]
    rw [ih]
    rfl

theorem data_callback_loop_slots_length (env : Env) (frame_count : Nat) :
    ∀ (slots : List sound_inst_t) (st : MixerRun),
      (data_callback_loop env frame_count slots st).1.length = slots.length := by
  intro slots
  induction slots with
  | nil => intro st; rfl
  | cons inst rest ih =>
    intro st
    simp only [data_callback_loop, List.length_cons]
    rw [ih]

/-- The state in which `data_callback` reaches the slot that follows the
slots `pre`. -/
theorem data_callback_loop_nth (env : Env) (frame_count : Nat)
    (pre post : List sound_inst_t) (inst : sound_inst_t) (st : MixerRun) :
    (data_callback_loop env frame_count (pre ++ inst :: post) st).1[pre.length]? =
      some (data_callback_slot env frame_count inst
        (data_callback_loop env frame_count pre st).2).1 := by
  rw [data_callback_loop_append]
  have hlen := data_callback_loop_slots_length env frame_count pre st
  simp only [data_callback_loop]
  rw [List.getElem?_append_right (by omega)]
  simp [hlen]

theorem data_callback_slot_of_some (env : Env) (frame_count : Nat) (inst : sound_inst_t)
    (st : MixerRun) (p : Nat) (hp : inst.sound = some p) :
    data_callback_slot env frame_count inst st =
      if (read_and_mix_pcm_frames_f32 env inst (st.sounds p) st.au_mix_temp st.output
            frame_count).total_frames_read < frame_count ∧
          (st.sounds p).type ≠ sound_type_.sound_type_stream then
        ({ inst with sound := none },
         { sounds := Function.update st.sounds p
             (read_and_mix_pcm_frames_f32 env inst (st.sounds p) st.au_mix_temp st.output
               frame_count).sound
           au_mix_temp := (read_and_mix_pcm_frames_f32 env inst (st.sounds p) st.au_mix_temp
             st.output frame_count).au_mix_temp
           released := st.released ++ [p]
           output := (read_and_mix_pcm_frames_f32 env inst (st.sounds p) st.au_mix_temp
             st.output frame_count).output })
      else
        (inst,
         { sounds := Function.update st.sounds p
             (read_and_mix_pcm_frames_f32 env inst (st.sounds p) st.au_mix_temp st.output
               frame_count).sound
           au_mix_temp := (read_and_mix_pcm_frames_f32 env inst (st.sounds p) st.au_mix_temp
             st.output frame_count).au_mix_temp
           released := st.released
           output := (read_and_mix_pcm_frames_f32 env inst (st.sounds p) st.au_mix_temp
             st.output frame_count).output }) := by
  unfold data_callback_slot
  rw [hp]
  simp only [read_and_mix_type]

theorem data_callback_slot_released_other (env : Env) (frame_count : Nat)
    (inst : sound_inst_t) (st : MixerRun) (p : Nat) (hne : inst.sound ≠ some p) :
    (data_callback_slot env frame_count inst st).2.released.count p =
      st.released.count p := by
  cases hq : inst.sound with
  | none => simp [data_callback_slot, hq]
  | some q =>
    rw [data_callback_slot_of_some env frame_count inst st q hq]
    have hqp : q ≠ p := fun h => hne (by rw [hq, h])
    have h0 : List.count p [q] = 0 :=
      List.count_eq_zero.mpr (by simpa using Ne.symm hqp)
    split_ifs
    · simp [List.count_append, h0]
    · rfl

theorem data_callback_loop_released_other (env : Env) (frame_count : Nat) (p : Nat) :
    ∀ (slots : List sound_inst_t) (st : MixerRun),
      (∀ other ∈ slots, other.sound ≠ some p) →
      (data_callback_loop env frame_count slots st).2.released.count p =
        st.released.count p := by
  intro slots
  induction slots with
  | nil => intro st _; rfl
  | cons inst rest ih =>
    intro st h
    simp only [data_callback_loop]
    rw [ih _ (fun other hmem => h other (List.mem_cons_of_mem _ hmem)),
      data_callback_slot_released_other env frame_count inst st p
        (h inst (List.mem_cons_self _ _))]

/-- The eviction rule of `data_callback` in terms of `framesRead`, the value
`read_and_mix_pcm_frames_f32` returns for a slot (which is not always the
number of frames the source produced: a chunk of one frame is consumed but
not counted).  Take
any invocation and any occupied slot of the pool (the slot after the slots
`pre`) whose asset `p` is a Decode or a Buffer variant.  If `framesRead <
frame_count`, the slot is empty after the callback and handling the slot
made exactly one `sound_release(p)` call, the only one of the callback when
no other slot references `p`; otherwise the slot still holds the same
instance after the callback and `p` was not released for it. -/
theorem data_callback_evicts_finished (env : Env) (s : AudioState) (output : List Flt)
    (frame_count : Nat) (pre post : List sound_inst_t) (inst : sound_inst_t) (p : Nat)
    (hslots : s.au_active_sounds = pre ++ inst :: post) (hp : inst.sound = some p)
    (hty : (s.sounds p).type = sound_type_.sound_type_decode ∨
      (s.sounds p).type = sound_type_.sound_type_buffer) :
    (framesRead env frame_count pre inst p s output < frame_count →
        (data_callback env s output frame_count).1.au_active_sounds[pre.length]? =
          some { inst with sound := none } ∧
        (data_callback_slot env frame_count inst
            (reached env frame_count pre s output)).2.released =
          (reached env frame_count pre s output).released ++ [p] ∧
        ((∀ other ∈ pre ++ post, other.sound ≠ some p) →
          (data_callback env s output frame_count).1.released.count p =
            s.released.count p + 1)) ∧
      (¬ framesRead env frame_count pre inst p s output < frame_count →
        (data_callback env s output frame_count).1.au_active_sounds[pre.length]? =
          some inst ∧
        (data_callback_slot env frame_count inst
            (reached env frame_count pre s output)).2.released =
          (reached env frame_count pre s output).released ∧
        ((∀ other ∈ pre ++ post, other.sound ≠ some p) →
          (data_callback env s output frame_count).1.released.count p =
            s.released.count p)) := by
  have hmid : ((reached env frame_count pre s output).sounds p).type ≠
      sound_type_.sound_type_stream := by
    unfold reached
    rw [data_callback_loop_type]
    show (s.sounds p).type ≠ _
    rcases hty with h | h <;> rw [h] <;> decide
  have hnth : (data_callback env s output frame_count).1.au_active_sounds[pre.length]? =
      some (data_callback_slot env frame_count inst
        (reached env frame_count pre s output)).1 := by
    show (data_callback_loop env frame_count s.au_active_sounds _).1[pre.length]? = _
    rw [hslots]
    exact data_callback_loop_nth env frame_count pre post inst _
  have hcount : (∀ other ∈ pre ++ post, other.sound ≠ some p) →
      (data_callback env s output frame_count).1.released.count p =
        (data_callback_slot env frame_count inst
          (reached env frame_count pre s output)).2.released.count p ∧
      (reached env frame_count pre s output).released.count p = s.released.count p := by
    intro hother
    constructor
    · show (data_callback_loop env frame_count s.au_active_sounds _).2.released.count p = _
      rw [hslots, data_callback_loop_append]
      simp only [data_callback_loop]
      exact data_callback_loop_released_other env frame_count p post _
        (fun other hmem => hother other (List.mem_append_right _ hmem))
    · exact data_callback_loop_released_other env frame_count p pre _
        (fun other hmem => hother other (List.mem_append_left _ hmem))
  rw [hnth, data_callback_slot_of_some env frame_count inst _ p hp] at *
  unfold framesRead
  constructor
  · intro hlt
    rw [if_pos ⟨hlt, hmid⟩] at *
    refine ⟨rfl, rfl, fun hother => ?_⟩
    obtain ⟨h1, h2⟩ := hcount hother
    rw [h1, List.count_append, h2]
    simp
  · intro hge
    rw [if_neg (fun h => hge h.1)] at *
    refine ⟨rfl, rfl, fun hother => ?_⟩
    obtain ⟨h1, h2⟩ := hcount hother
    rw [h1, h2]

theorem data_callback_evicts_finished_witness :
    (framesRead axisEnv 4 [] (instAt 0 1 1) 0 oneFramePool (silence 4) < 4 →
        (data_callback axisEnv oneFramePool (silence 4) 4).1.au_active_sounds[
            ([] : List sound_inst_t).length]? =
          some { instAt 0 1 1 with sound := none } ∧
        (data_callback_slot axisEnv 4 (instAt 0 1 1)
            (reached axisEnv 4 [] oneFramePool (silence 4))).2.released =
          (reached axisEnv 4 [] oneFramePool (silence 4)).released ++ [0] ∧
        ((∀ other ∈ [] ++ [emptySlot, emptySlot, emptySlot, emptySlot, emptySlot, emptySlot,
            emptySlot], other.sound ≠ some 0) →
          (data_callback axisEnv oneFramePool (silence 4) 4).1.released.count 0 =
            oneFramePool.released.count 0 + 1)) ∧
      (¬ framesRead axisEnv 4 [] (instAt 0 1 1) 0 oneFramePool (silence 4) < 4 →
        (data_callback axisEnv oneFramePool (silence 4) 4).1.au_active_sounds[
            ([] : List sound_inst_t).length]? =
          some (instAt 0 1 1) ∧
        (data_callback_slot axisEnv 4 (instAt 0 1 1)
            (reached axisEnv 4 [] oneFramePool (silence 4))).2.released =
          (reached axisEnv 4 [] oneFramePool (silence 4)).released ∧
        ((∀ other ∈ [] ++ [emptySlot, emptySlot, emptySlot, emptySlot, emptySlot, emptySlot,
            emptySlot], other.sound ≠ some 0) →
          (data_callback axisEnv oneFramePool (silence 4) 4).1.released.count 0 =
            oneFramePool.released.count 0)) :=
  data_callback_evicts_finished axisEnv oneFramePool (silence 4) 4 []
    [emptySlot, emptySlot, emptySlot, emptySlot, emptySlot, emptySlot, emptySlot]
    (instAt 0 1 1) 0 rfl rfl (Or.inr rfl)

/-- C6 (evaluation at the failing input): `data_callback` with `frame_count =
1` on a pool whose first slot plays a Buffer-variant sound of two frames.
The one read request asks for one frame and the buffer produces it (the
cursor moves from `0` to `1` of `2`), so the source produced all
`frame_count` frames; yet the call reports `framesRead = 0`, the asset is
released and the slot is emptied, the output staying silent. -/
theorem full_frame_slot_evicted :
    read_and_mix_reads axisEnv (instAt 0 1 1) (twoFramePool.sounds 0)
        twoFramePool.au_mix_temp (silence 1) 1 =
      [{ total_frames_read := 0, frames_to_read := 1, frames_read := 1,
         samples := [Flt.fin (1 / 2)] }] ∧
      framesRead axisEnv 1 [] (instAt 0 1 1) 0 twoFramePool (silence 1) = 0 ∧
      ((data_callback axisEnv twoFramePool (silence 1) 1).1.sounds 0).buffer.cursor = 1 ∧
      ((data_callback axisEnv twoFramePool (silence 1) 1).1.sounds 0).buffer.count = 2 ∧
      (data_callback axisEnv twoFramePool (silence 1) 1).1.au_active_sounds.map
          (fun inst => inst.sound) = [none, none, none, none, none, none, none, none] ∧
      (data_callback axisEnv twoFramePool (silence 1) 1).1.released = [0] ∧
      (data_callback axisEnv twoFramePool (silence 1) 1).2 = silence 1 := by
  simp [read_and_mix_reads, read_and_mix_trace, ChunkRead.of, framesRead, reached,
    data_callback, data_callback_loop, data_callback_slot, read_and_mix_pcm_frames_f32,
    read_and_mix_loop, read_frames, chunk_size, frame_cap, mini, twoFramePool, audioState,
    heapOf, bufferSound, instAt, emptySlot, axisEnv, silence, MixerRun.start, store_floats,
    List.range_succ]

/-! ## Streams are never evicted -/

theorem data_callback_slot_stream (env : Env) (frame_count : Nat) (inst : sound_inst_t)
    (st : MixerRun) (p : Nat) (hp : inst.sound = some p)
    (hty : (st.sounds p).type = sound_type_.sound_type_stream) :
    (data_callback_slot env frame_count inst st).1 = inst := by
  rw [data_callback_slot_of_some env frame_count inst st p hp, if_neg]
  exact fun h => h.2 hty

theorem data_callback_slot_released (env : Env) (frame_count : Nat) (inst : sound_inst_t)
    (st : MixerRun) (p : Nat) (hty : (st.sounds p).type = sound_type_.sound_type_stream) :
    (data_callback_slot env frame_count inst st).2.released.count p =
      st.released.count p := by
  cases hq : inst.sound with
  | none => simp [data_callback_slot, hq]
  | some q =>
    rw [data_callback_slot_of_some env frame_count inst st q hq]
    split_ifs with hc
    · have hne : q ≠ p := fun h => hc.2 (h ▸ hty)
      have h0 : List.count p [q] = 0 :=
        List.count_eq_zero.mpr (by simpa using Ne.symm hne)
      simp [List.count_append, h0]
    · rfl

theorem data_callback_loop_released (env : Env) (frame_count : Nat) (p : Nat) :
    ∀ (slots : List sound_inst_t) (st : MixerRun),
      (st.sounds p).type = sound_type_.sound_type_stream →
      (data_callback_loop env frame_count slots st).2.released.count p =
        st.released.count p := by
  intro slots
  induction slots with
  | nil => intro st _; rfl
  | cons inst0 rest ih =>
    intro st hty
    simp only [data_callback_loop]
    rw [ih _ (by rw [data_callback_slot_type]; exact hty),
      data_callback_slot_released env frame_count inst0 st p hty]

theorem data_callback_loop_stream (env : Env) (frame_count : Nat) (inst : sound_inst_t)
    (p : Nat) (hp : inst.sound = some p) :
    ∀ (slots : List sound_inst_t) (st : MixerRun) (i : Nat), slots[i]? = some inst →
      (st.sounds p).type = sound_type_.sound_type_stream →
      (data_callback_loop env frame_count slots st).1[i]? = some inst := by
  intro slots
  induction slots with
  | nil => intro st i hi; simp at hi
  | cons inst0 rest ih =>
    intro st i hi hty
    cases i with
    | zero =>
      have h0 : inst0 = inst := by simpa using hi
      subst h0
      simp [data_callback_loop, data_callback_slot_stream env frame_count inst0 st p hp hty]
    | succ j =>
      have hj : rest[j]? = some inst := by simpa using hi
      have hty2 : ((data_callback_slot env frame_count inst0 st).2.sounds p).type =
          sound_type_.sound_type_stream := by
        rw [data_callback_slot_type]; exact hty
      simpa [data_callback_loop] using ih _ j hj hty2

/-! The same facts for the spatial backend path. -/

theorem readDataForIsac_loop_type (env : Env) (frame_count fuel : Nat) :
    ∀ v : MixVars,
      (readDataForIsac_loop env frame_count fuel v).sound.type = v.sound.type := by
  induction fuel with
  | zero => intro v; rfl
  | succ fuel ih =>
    intro v
    simp only [readDataForIsac_loop]
    split_ifs
    · exact read_frames_type _ _ _ _
    · exact read_frames_type _ _ _ _
    · rw [ih]; exact read_frames_type _ _ _ _
    · rfl

theorem readDataForIsac_type (env : Env) (inst : sound_inst_t) (snd : _sound_t)
    (tmp : Nat → Flt) (output : List Flt) (frame_count : Nat) :
    (readDataForIsac env inst snd tmp output frame_count).1.sound.type = snd.type :=
  readDataForIsac_loop_type env frame_count frame_count _

theorem isac_slot_sounds (env : Env) (numFrames : Nat) (inst : sound_inst_t)
    (src : IsacSource) (st : IsacRun) (p : Nat) (hp : inst.sound = some p) :
    (isac_data_callback_slot env numFrames inst src st).2.2.sounds =
      Function.update st.sounds p
        (readDataForIsac env inst (st.sounds p) st.au_mix_temp src.buffer numFrames).1.sound := by
  unfold isac_data_callback_slot
  rw [hp]
  simp only
  split_ifs <;> rfl

theorem isac_slot_type (env : Env) (numFrames : Nat) (inst : sound_inst_t)
    (src : IsacSource) (st : IsacRun) (q : Nat) :
    ((isac_data_callback_slot env numFrames inst src st).2.2.sounds q).type =
      (st.sounds q).type := by
  cases hp : inst.sound with
  | none => simp [isac_data_callback_slot, hp]
  | some p =>
    rw [isac_slot_sounds env numFrames inst src st p hp]
    by_cases hq : q = p
    · subst hq
      rw [Function.update_same]
      exact readDataForIsac_type _ _ _ _ _ _
    · rw [Function.update_noteq hq]

theorem isac_slot_stream (env : Env) (numFrames : Nat) (inst : sound_inst_t)
    (src : IsacSource) (st : IsacRun) (p : Nat) (hp : inst.sound = some p)
    (hty : (st.sounds p).type = sound_type_.sound_type_stream) :
    (isac_data_callback_slot env numFrames inst src st).1 = inst := by
  unfold isac_data_callback_slot
  rw [hp]
  simp only [readDataForIsac_type]
  rw [if_neg]
  exact fun h => h.2 hty

theorem isac_slot_released (env : Env) (numFrames : Nat) (inst : sound_inst_t)
    (src : IsacSource) (st : IsacRun) (p : Nat)
    (hty : (st.sounds p).type = sound_type_.sound_type_stream) :
    (isac_data_callback_slot env numFrames inst src st).2.2.released.count p =
      st.released.count p := by
  cases hq : inst.sound with
  | none => simp [isac_data_callback_slot, hq]
  | some q =>
    unfold isac_data_callback_slot
    rw [hq]
    simp only [readDataForIsac_type]
    split_ifs with hc
    · have hne : q ≠ p := fun h => hc.2 (h ▸ hty)
      have h0 : List.count p [q] = 0 :=
        List.count_eq_zero.mpr (by simpa using Ne.symm hne)
      simp [List.count_append, h0]
    · rfl

theorem isac_loop_released (env : Env) (numFrames : Nat) (p : Nat) :
    ∀ (slots : List (sound_inst_t × IsacSource)) (st : IsacRun),
      (st.sounds p).type = sound_type_.sound_type_stream →
      (isac_data_callback_loop env numFrames slots st).2.released.count p =
        st.released.count p := by
  intro slots
  induction slots with
  | nil => intro st _; rfl
  | cons x rest ih =>
    intro st hty
    obtain ⟨inst0, src0⟩ := x
    simp only [isac_data_callback_loop]
    rw [ih _ (by rw [isac_slot_type]; exact hty),
      isac_slot_released env numFrames inst0 src0 st p hty]

theorem isac_loop_stream (env : Env) (numFrames : Nat) (inst : sound_inst_t)
    (p : Nat) (hp : inst.sound = some p) :
    ∀ (slots : List (sound_inst_t × IsacSource)) (st : IsacRun) (i : Nat),
      slots[i]?.map Prod.fst = some inst →
      (st.sounds p).type = sound_type_.sound_type_stream →
      ((isac_data_callback_loop env numFrames slots st).1.map Prod.fst)[i]? = some inst := by
  intro slots
  induction slots with
  | nil => intro st i hi; simp at hi
  | cons x rest ih =>
    intro st i hi hty
    obtain ⟨inst0, src0⟩ := x
    cases i with
    | zero =>
      have h0 : inst0 = inst := by simpa using hi
      subst h0
      simp [isac_data_callback_loop, isac_slot_stream env numFrames inst0 src0 st p hp hty]
    | succ j =>
      have hj : rest[j]?.map Prod.fst = some inst := by simpa using hi
      have hty2 : ((isac_data_callback_slot env numFrames inst0 src0 st).2.2.sounds p).type =
          sound_type_.sound_type_stream := by
        rw [isac_slot_type]; exact hty
      simpa [isac_data_callback_loop] using ih _ j hj hty2

/-- C7: a slot of the pool that holds a Stream-variant asset `p` holds the
same instance after `data_callback` and after `isac_data_callback`, for every
`frame_count` and every state of the ring buffer (an empty one included), and
neither callback issues a `sound_release(p)`. -/
theorem stream_slot_never_evicted (env : Env) (s : AudioState) (frame_count i : Nat)
    (inst : sound_inst_t) (p : Nat) (hi : s.au_active_sounds[i]? = some inst)
    (hp : inst.sound = some p)
    (hty : (s.sounds p).type = sound_type_.sound_type_stream) :
    (∀ output : List Flt,
        (data_callback env s output frame_count).1.au_active_sounds[i]? = some inst ∧
        (data_callback env s output frame_count).1.released.count p = s.released.count p) ∧
      (∀ sources : List IsacSource, sources.length = s.au_active_sounds.length →
        (isac_data_callback env s sources frame_count).1.au_active_sounds[i]? = some inst ∧
        (isac_data_callback env s sources frame_count).1.released.count p =
          s.released.count p) := by
  constructor
  · intro output
    exact ⟨data_callback_loop_stream env frame_count inst p hp _ _ i hi hty,
      data_callback_loop_released env frame_count p _ _ hty⟩
  · intro sources hlen
    refine ⟨?_, isac_loop_released env frame_count p _ _ hty⟩
    have hilt : i < s.au_active_sounds.length := by
      rcases List.getElem?_eq_some_iff.mp hi with ⟨h, _⟩
      exact h
    have hzip : (s.au_active_sounds.zip sources)[i]?.map Prod.fst = some inst := by
      have hsrc : i < sources.length := by omega
      rw [List.getElem?_eq_getElem (by simp [List.length_zip]; omega)]
      simp only [List.getElem_zip, Option.map_some']
      rw [List.getElem?_eq_getElem hilt] at hi
      exact hi
    exact isac_loop_stream env frame_count inst p hp _ _ i hzip hty

theorem stream_slot_never_evicted_witness :
    (∀ output : List Flt,
        (data_callback axisEnv starvedPool output 4).1.au_active_sounds[0]? =
          some (instAt 0 1 1) ∧
        (data_callback axisEnv starvedPool output 4).1.released.count 0 =
          starvedPool.released.count 0) ∧
      (∀ sources : List IsacSource, sources.length = starvedPool.au_active_sounds.length →
        (isac_data_callback axisEnv starvedPool sources 4).1.au_active_sounds[0]? =
          some (instAt 0 1 1) ∧
        (isac_data_callback axisEnv starvedPool sources 4).1.released.count 0 =
          starvedPool.released.count 0) :=
  stream_slot_never_evicted axisEnv starvedPool 4 0 (instAt 0 1 1) 0 rfl rfl rfl

/-! ## Microphone capture -/

/-- C8 (evaluation at the failing input): `mic_start("nonexistent")` with one
capture device named "Mic A" and no capture running.  The lookup leaves
`id == nullptr`, `ma_device_init` opens the default device, and the call
returns the stream asset with the recording flag set. -/
theorem mic_start_unknown_name :
    mic_start (oneMicEnv true) (some "nonexistent") idleMic =
      (some 7,
       { au_mic_name := some "nonexistent"
         au_recording := true
         au_mic_sound := some 7
         au_mic_device := some none
         events := [MicEvent.device_init none true, MicEvent.device_start true,
           MicEvent.create_stream 7] }) ∧
      devices_opened
        (mic_start (oneMicEnv true) (some "nonexistent") idleMic).2.events = 1 := by
  constructor <;> decide

theorem devices_opened_append (l1 l2 : List MicEvent) :
    devices_opened (l1 ++ l2) = devices_opened l1 + devices_opened l2 := by
  simp [devices_opened, List.filter_append]

theorem mic_start_of_recording (env : MicEnv) (d : Option String) (s : MicState)
    (hrec : s.au_recording = true) (hname : s.au_mic_name = d) :
    mic_start env d s = (s.au_mic_sound, s) := by
  unfold mic_start
  rw [if_pos hrec]
  cases d with
  | none => simp [hname]
  | some name => simp [hname]

theorem mic_start_open_success (env : MicEnv) (d : Option String) (s : MicState)
    (h : (mic_start_open env d s).1 ≠ none) :
    (mic_start_open env d s).2.au_recording = true ∧
      (mic_start_open env d s).2.au_mic_name = d ∧
      (mic_start_open env d s).2.au_mic_sound = (mic_start_open env d s).1 ∧
      devices_opened (mic_start_open env d s).2.events = devices_opened s.events + 1 := by
  unfold mic_start_open at h ⊢
  cases hid : mic_find_id env d with
  | none => simp [hid] at h
  | some id =>
    simp only [hid] at h ⊢
    by_cases hok : env.device_init_ok id = true
    · by_cases hs : s.au_mic_sound = none
      · simp [hok, hs, devices_opened_append, devices_opened]
      · simp [hok, hs, devices_opened_append, devices_opened]
    · simp [hok] at h

theorem mic_stop_opened (s : MicState) :
    devices_opened (mic_stop s).events = devices_opened s.events := by
  simp [mic_stop, devices_opened_append, devices_opened]

theorem mic_start_success (env : MicEnv) (d : Option String) (s : MicState)
    (h : (mic_start env d s).1 ≠ none) :
    (mic_start env d s).2.au_recording = true ∧
      (mic_start env d s).2.au_mic_name = d ∧
      (mic_start env d s).2.au_mic_sound = (mic_start env d s).1 ∧
      devices_opened (mic_start env d s).2.events =
        devices_opened s.events + (if s.au_recording = true ∧ s.au_mic_name = d then 0 else 1) := by
  by_cases hrec : s.au_recording = true
  · by_cases hname : s.au_mic_name = d
    · rw [mic_start_of_recording env d s hrec hname]
      simp [hrec, hname]
    · have hstart : mic_start env d s = mic_start_open env d (mic_stop s) := by
        unfold mic_start
        rw [if_pos hrec]
        cases d with
        | none => simp [hname]
        | some name => simp [hname]
      rw [hstart] at h ⊢
      have := mic_start_open_success env d (mic_stop s) h
      rw [mic_stop_opened] at this
      simpa [hname] using this
  · have hstart : mic_start env d s = mic_start_open env d s := by
      unfold mic_start
      rw [if_neg hrec]
    rw [hstart] at h ⊢
    have := mic_start_open_success env d s h
    simpa [hrec] using this

/-- C9: `mic_start` is idempotent on the active device.  When capture is
already running on device `d` (a name, or `none` for the default),
`mic_start(d)` returns the existing stream asset and leaves every microphone
global and the trace of device calls unchanged.  Hence, after a successful
`mic_start(d)`, a second `mic_start(d)` returns the same asset and changes
nothing, and the two calls together open one device, or none when capture
was running on `d` before the first call. -/
theorem mic_start_idempotent (env env2 : MicEnv) (d : Option String) (s : MicState) :
    (s.au_recording = true → s.au_mic_name = d →
        mic_start env d s = (s.au_mic_sound, s)) ∧
      ((mic_start env d s).1 ≠ none →
        mic_start env2 d (mic_start env d s).2 =
          ((mic_start env d s).1, (mic_start env d s).2) ∧
        devices_opened (mic_start env2 d (mic_start env d s).2).2.events =
          devices_opened s.events +
            (if s.au_recording = true ∧ s.au_mic_name = d then 0 else 1)) := by
  refine ⟨mic_start_of_recording env d s, ?_⟩
  intro h
  obtain ⟨hrec, hname, hsnd, hopen⟩ := mic_start_success env d s h
  have h2 := mic_start_of_recording env2 d (mic_start env d s).2 hrec hname
  rw [hsnd] at h2
  refine ⟨h2, ?_⟩
  rw [h2]
  exact hopen

theorem mic_start_idempotent_witness :
    ((mic_start (oneMicEnv true) (some "Mic A") idleMic).2.au_recording = true →
        (mic_start (oneMicEnv true) (some "Mic A") idleMic).2.au_mic_name = some "Mic A" →
        mic_start (oneMicEnv false) (some "Mic A")
            (mic_start (oneMicEnv true) (some "Mic A") idleMic).2 =
          ((mic_start (oneMicEnv true) (some "Mic A") idleMic).2.au_mic_sound,
           (mic_start (oneMicEnv true) (some "Mic A") idleMic).2)) ∧
      ((mic_start (oneMicEnv true) (some "Mic A") idleMic).1 ≠ none →
        mic_start (oneMicEnv true) (some "Mic A")
            (mic_start (oneMicEnv true) (some "Mic A") idleMic).2 =
          ((mic_start (oneMicEnv true) (some "Mic A") idleMic).1,
           (mic_start (oneMicEnv true) (some "Mic A") idleMic).2) ∧
        devices_opened (mic_start (oneMicEnv true) (some "Mic A")
            (mic_start (oneMicEnv true) (some "Mic A") idleMic).2).2.events =
          devices_opened idleMic.events + 1) ∧
      (mic_start (oneMicEnv true) (some "Mic A") idleMic).2.au_recording = true ∧
      (mic_start (oneMicEnv true) (some "Mic A") idleMic).2.au_mic_name = some "Mic A" ∧
      (mic_start (oneMicEnv true) (some "Mic A") idleMic).1 ≠ none :=
  ⟨(mic_start_idempotent (oneMicEnv false) (oneMicEnv true) (some "Mic A")
      (mic_start (oneMicEnv true) (some "Mic A") idleMic).2).1,
   (mic_start_idempotent (oneMicEnv true) (oneMicEnv true) (some "Mic A") idleMic).2,
   by decide, by decide, by decide⟩

/-- C10 (evaluation at the failing input): `mic_start` with the default
device, no capture running, `ma_device_init` succeeding and
`ma_device_start` failing.  The result of `ma_device_start` is not looked
at: the call returns the stream asset and sets the recording flag. -/
theorem mic_start_ignores_start_failure :
    (mic_start (oneMicEnv false) none idleMic).1 = some 7 ∧
      (mic_start (oneMicEnv false) none idleMic).2.au_recording = true ∧
      (mic_start (oneMicEnv false) none idleMic).2.events =
        [MicEvent.device_init none true, MicEvent.device_start false,
          MicEvent.create_stream 7] := by
  decide

/-- The half of C10 that the code keeps: when `ma_device_init` fails,
`mic_start` returns `nullptr` and the recording flag is false afterwards,
whatever the state before the call. -/
theorem mic_start_init_failure (env : MicEnv) (d : Option String) (s : MicState)
    (hfail : ∀ id, env.device_init_ok id = false)
    (hnot : ¬ (s.au_recording = true ∧ s.au_mic_name = d)) :
    (mic_start env d s).1 = none ∧ (mic_start env d s).2.au_recording = false := by
  have hopen : ∀ s0 : MicState, s0.au_recording = false →
      (mic_start_open env d s0).1 = none ∧
        (mic_start_open env d s0).2.au_recording = false := by
    intro s0 h0
    unfold mic_start_open
    cases hid : mic_find_id env d with
    | none => exact ⟨rfl, h0⟩
    | some id => simp [hfail id, h0]
  by_cases hrec : s.au_recording = true
  · have hname : s.au_mic_name ≠ d := fun h => hnot ⟨hrec, h⟩
    have hstart : mic_start env d s = mic_start_open env d (mic_stop s) := by
      unfold mic_start
      rw [if_pos hrec]
      cases d with
      | none => simp [hname]
      | some name => simp [hname]
    rw [hstart]
    exact hopen _ rfl
  · have hstart : mic_start env d s = mic_start_open env d s := by
      unfold mic_start
      rw [if_neg hrec]
    rw [hstart]
    exact hopen _ (by simpa using hrec)

/-! ## Order of the slots -/

/-- C2 (counterexample): three distinct sources contributing `1`, `1` and `-1`
to each sample of a silent buffer.  Mixed in the slot order `0, 1, 2` the
output is `0, 0` (the second add clips at `1`); mixed in the order `0, 2, 1`
it is `1, 1`. -/
theorem data_callback_order_matters :
    (data_callback axisEnv (clipPool [0, 1, 2]) (silence 2) 2).2 = [Flt.fin 0, Flt.fin 0] ∧
      (data_callback axisEnv (clipPool [0, 2, 1]) (silence 2) 2).2 =
        [Flt.fin 1, Flt.fin 1] := by
  constructor <;>
  simp [data_callback, data_callback_loop, data_callback_slot, read_and_mix_pcm_frames_f32,
    read_and_mix_loop, read_frames, chunk_size, frame_cap, mini, clipPool, audioState,
    heapOf, bufferSound, instAt, emptySlot, axisEnv, silence, MixerRun.start, mix_samples,
    mix_volume, clip_add, store_floats, vec3.sub, Flt.add, Flt.mul, Flt.div, Flt.fminf,
    Flt.fmaxf, Function.update]

theorem set_clip_getElem? (out : List Flt) (i j : Nat) (d s : Flt) :
    (out.set i (clip_add (out.getD i d) s))[j]? =
      if i = j then (out[j]?).map (fun o => clip_add o s) else out[j]? := by
  rw [List.getElem?_set]
  by_cases hij : i = j
  · subst hij
    by_cases hlt : i < out.length
    · simp [hlt, List.getD_eq_getElem?_getD, List.getElem?_eq_getElem hlt]
    · have hnone : out[i]? = none := by simp [List.getElem?_eq_none_iff]; omega
      simp [hlt, hnone]
  · simp [hij]

theorem mix_samples_getElem? (tmp : Nat → Flt) (volume : Flt) (base n : Nat) :
    ∀ (sample : Nat) (out : List Flt) (j : Nat),
      (mix_samples tmp volume base n sample out)[j]? =
        if base + sample ≤ j ∧ j < base + sample + n then
          (out[j]?).map (fun o => clip_add o (Flt.mul (tmp (j - base)) volume))
        else out[j]? := by
  induction n with
  | zero =>
    intro sample out j
    have : ¬ (base + sample ≤ j ∧ j < base + sample + 0) := by omega
    rw [if_neg this]
    rfl
  | succ n ih =>
    intro sample out j
    simp only [mix_samples]
    rw [ih, set_clip_getElem?]
    by_cases h1 : base + sample = j
    · have h2 : ¬ (base + (sample + 1) ≤ j ∧ j < base + (sample + 1) + n) := by omega
      have h3 : base + sample ≤ j ∧ j < base + sample + (n + 1) := by omega
      have h4 : j - base = sample := by omega
      simp [h1, h2, h3, h4]
    · by_cases h2 : base + (sample + 1) ≤ j ∧ j < base + (sample + 1) + n
      · have h3 : base + sample ≤ j ∧ j < base + sample + (n + 1) := by omega
        simp [h1, h2, h3]
      · have h3 : ¬ (base + sample ≤ j ∧ j < base + sample + (n + 1)) := by omega
        simp [h1, h2, h3]

/-- With one channel, the frames a read yields, the sound afterwards and the
part of the scratch buffer that holds the frames do not depend on what the
scratch buffer held before. -/
theorem read_frames_mono (env : Env) (hch : env.AU_CHANNEL_COUNT = 1) (snd : _sound_t)
    (tmp1 tmp2 : Nat → Flt) (n : Nat) :
    (read_frames env snd tmp1 n).1 = (read_frames env snd tmp2 n).1 ∧
      (read_frames env snd tmp1 n).2.2 = (read_frames env snd tmp2 n).2.2 ∧
      ∀ k, k < (read_frames env snd tmp1 n).1 →
        (read_frames env snd tmp1 n).2.1 k = (read_frames env snd tmp2 n).2.1 k := by
  unfold read_frames
  split
  · refine ⟨rfl, rfl, ?_⟩
    intro k hk
    simp only [ma_decoder_read_pcm_frames, hch, Nat.mul_one, Nat.div_one] at hk ⊢
    simp only [store_floats, if_pos hk]
  · refine ⟨rfl, rfl, ?_⟩
    intro k hk
    simp only [ring_buffer_read] at hk ⊢
    simp [store_floats, hk]
  · refine ⟨rfl, rfl, ?_⟩
    intro k hk
    simp only at hk ⊢
    simp [store_floats, hk]
  · refine ⟨rfl, rfl, ?_⟩
    intro k hk
    simp at hk

/-- With one channel, two runs of the mixing loop on the same sound, whatever
their scratch and output buffers: they return the same count and leave the
sound in the same state, and at every output index either both leave the
sample as it was or both add the same value to it with clipping. -/
theorem read_and_mix_loop_pair (env : Env) (hch : env.AU_CHANNEL_COUNT = 1)
    (inst : sound_inst_t) (frame_count : Nat) :
    ∀ (fuel t : Nat) (snd : _sound_t) (tmp1 tmp2 : Nat → Flt) (out1 out2 : List Flt),
      (read_and_mix_loop env inst frame_count fuel ⟨t, snd, tmp1, out1⟩).total_frames_read =
          (read_and_mix_loop env inst frame_count fuel ⟨t, snd, tmp2, out2⟩).total_frames_read ∧
        (read_and_mix_loop env inst frame_count fuel ⟨t, snd, tmp1, out1⟩).sound =
          (read_and_mix_loop env inst frame_count fuel ⟨t, snd, tmp2, out2⟩).sound ∧
        ∀ j,
          ((read_and_mix_loop env inst frame_count fuel ⟨t, snd, tmp1, out1⟩).output[j]? =
              out1[j]? ∧
            (read_and_mix_loop env inst frame_count fuel ⟨t, snd, tmp2, out2⟩).output[j]? =
              out2[j]?) ∨
          (t ≤ j ∧ ∃ s,
            (read_and_mix_loop env inst frame_count fuel ⟨t, snd, tmp1, out1⟩).output[j]? =
              (out1[j]?).map (fun o => clip_add o s) ∧
            (read_and_mix_loop env inst frame_count fuel ⟨t, snd, tmp2, out2⟩).output[j]? =
              (out2[j]?).map (fun o => clip_add o s)) := by
  intro fuel
  induction fuel with
  | zero =>
    intro t snd tmp1 tmp2 out1 out2
    exact ⟨rfl, rfl, fun j => Or.inl ⟨rfl, rfl⟩⟩
  | succ fuel ih =>
    intro t snd tmp1 tmp2 out1 out2
    obtain ⟨hfr, hsnd, htmp⟩ :=
      read_frames_mono env hch snd tmp1 tmp2 (chunk_size env frame_count t)
    simp only [read_and_mix_loop, hch, Nat.mul_one]
    rw [← hfr, ← hsnd]
    split_ifs with h1 h2 h3
    · exact ⟨rfl, rfl, fun j => Or.inl ⟨rfl, rfl⟩⟩
    · refine ⟨rfl, rfl, fun j => ?_⟩
      simp only [mix_samples_getElem?]
      by_cases hj : t + 0 ≤ j ∧ j < t + 0 + (read_frames env snd tmp1
          (chunk_size env frame_count t)).1
      · right
        refine ⟨by omega, Flt.mul ((read_frames env snd tmp1
          (chunk_size env frame_count t)).2.1 (j - t)) (mix_volume env inst), ?_, ?_⟩
        · rw [if_pos hj]
        · rw [if_pos hj, htmp (j - t) (by omega)]
      · left
        rw [if_neg hj, if_neg hj]
        exact ⟨rfl, rfl⟩
    · obtain ⟨ih1, ih2, ih3⟩ := ih
        (t + (read_frames env snd tmp1 (chunk_size env frame_count t)).1)
        (read_frames env snd tmp1 (chunk_size env frame_count t)).2.2
        (read_frames env snd tmp1 (chunk_size env frame_count t)).2.1
        (read_frames env snd tmp2 (chunk_size env frame_count t)).2.1
        (mix_samples (read_frames env snd tmp1 (chunk_size env frame_count t)).2.1
          (mix_volume env inst) t
          (read_frames env snd tmp1 (chunk_size env frame_count t)).1 0 out1)
        (mix_samples (read_frames env snd tmp2 (chunk_size env frame_count t)).2.1
          (mix_volume env inst) t
          (read_frames env snd tmp1 (chunk_size env frame_count t)).1 0 out2)
      refine ⟨ih1, ih2, fun j => ?_⟩
      by_cases hj : t + 0 ≤ j ∧ j < t + 0 + (read_frames env snd tmp1
          (chunk_size env frame_count t)).1
      · rcases ih3 j with ⟨e1, e2⟩ | ⟨hge, _⟩
        · right
          refine ⟨by omega, Flt.mul ((read_frames env snd tmp1
            (chunk_size env frame_count t)).2.1 (j - t)) (mix_volume env inst), ?_, ?_⟩
          · rw [e1, mix_samples_getElem?, if_pos hj]
          · rw [e2, mix_samples_getElem?, if_pos hj, htmp (j - t) (by omega)]
        · omega
      · rcases ih3 j with ⟨e1, e2⟩ | ⟨hge, s, e1, e2⟩
        · left
          rw [e1, e2, mix_samples_getElem?, mix_samples_getElem?, if_neg hj, if_neg hj]
          exact ⟨rfl, rfl⟩
        · right
          refine ⟨by omega, s, ?_, ?_⟩
          · rw [e1, mix_samples_getElem?, if_neg hj]
          · rw [e2, mix_samples_getElem?, if_neg hj]
    · exact ⟨rfl, rfl, fun j => Or.inl ⟨rfl, rfl⟩⟩

theorem clip_add_no_clip (o c : ℚ) (s : Flt) (hc : clip_add (Flt.fin 0) s = Flt.fin c)
    (h : |o| + |c| ≤ 1) : clip_add (Flt.fin o) s = Flt.fin (o + c) := by
  have ho := abs_nonneg o
  have hcn := abs_nonneg c
  have key : (c = 1 ∨ c = -1) → clip_add (Flt.fin o) s = Flt.fin (o + c) := by
    intro h1
    have hc1 : |c| = 1 := by rcases h1 with h1 | h1 <;> rw [h1] <;> norm_num
    have ho0 : o = 0 := abs_eq_zero.mp (by linarith)
    rw [ho0, zero_add]
    exact hc
  cases s with
  | fin a =>
    simp only [clip_add, Flt.add, Flt.fminf, Flt.fmaxf, zero_add] at hc ⊢
    have hc2 : max (-1) (min 1 a) = c := Flt.fin.inj hc
    congr 1
    by_cases h1 : 1 < a
    · have : c = 1 := by
        rw [← hc2, min_eq_left (le_of_lt h1)]; norm_num
      have := key (Or.inl this)
      simp only [clip_add, Flt.add, Flt.fminf, Flt.fmaxf] at this
      exact Flt.fin.inj this
    · by_cases h2 : a < -1
      · have : c = -1 := by
          rw [← hc2, min_eq_right (by linarith), max_eq_left (le_of_lt h2)]
        have := key (Or.inr this)
        simp only [clip_add, Flt.add, Flt.fminf, Flt.fmaxf] at this
        exact Flt.fin.inj this
      · have hca : c = a := by
          rw [← hc2, min_eq_right (by linarith), max_eq_right (by linarith)]
        rw [hca] at h ⊢
        have h3 := abs_le.mp (le_trans (abs_add o a) h)
        rw [min_eq_right h3.2, max_eq_right h3.1]
  | pinf =>
    apply key
    left
    have : clip_add (Flt.fin 0) Flt.pinf = Flt.fin 1 := by
      simp [clip_add, Flt.add, Flt.fminf, Flt.fmaxf]
    rw [this] at hc
    exact (Flt.fin.inj hc).symm
  | ninf =>
    apply key
    right
    have : clip_add (Flt.fin 0) Flt.ninf = Flt.fin (-1) := by
      simp [clip_add, Flt.add, Flt.fminf, Flt.fmaxf]
    rw [this] at hc
    exact (Flt.fin.inj hc).symm
  | nan =>
    apply key
    left
    have : clip_add (Flt.fin 0) Flt.nan = Flt.fin 1 := by
      simp [clip_add, Flt.add, Flt.fminf, Flt.fmaxf]
    rw [this] at hc
    exact (Flt.fin.inj hc).symm

theorem data_callback_slot_sounds (env : Env) (frame_count : Nat) (inst : sound_inst_t)
    (st : MixerRun) (p : Nat) (hp : inst.sound = some p) :
    (data_callback_slot env frame_count inst st).2.sounds =
      Function.update st.sounds p
        (read_and_mix_pcm_frames_f32 env inst (st.sounds p) st.au_mix_temp st.output
          frame_count).sound := by
  rw [data_callback_slot_of_some env frame_count inst st p hp]
  split_ifs <;> rfl

theorem data_callback_slot_output (env : Env) (frame_count : Nat) (inst : sound_inst_t)
    (st : MixerRun) (p : Nat) (hp : inst.sound = some p) :
    (data_callback_slot env frame_count inst st).2.output =
      (read_and_mix_pcm_frames_f32 env inst (st.sounds p) st.au_mix_temp st.output
        frame_count).output := by
  rw [data_callback_slot_of_some env frame_count inst st p hp]
  split_ifs <;> rfl

theorem silence_getElem? (n j : Nat) (hj : j < n) : (silence n)[j]? = some (Flt.fin 0) := by
  simp [silence, List.getElem?_replicate, hj]

theorem silence_inUnit (n : Nat) : ∀ x ∈ silence n, Flt.InUnit x := by
  intro x hx
  have hx0 : x = Flt.fin 0 := (List.mem_replicate.mp hx).2
  exact ⟨0, hx0, by norm_num, by norm_num⟩

/-- One slot, when its add does not clip: the sample afterwards is the sample
before plus the contribution of the slot. -/
theorem data_callback_slot_sum (env : Env) (hch : env.AU_CHANNEL_COUNT = 1)
    (frame_count : Nat) (s : AudioState) (n j : Nat) (hj : j < n) (inst : sound_inst_t)
    (st : MixerRun) (o : ℚ)
    (hs : ∀ p, inst.sound = some p → st.sounds p = s.sounds p)
    (ho : st.output[j]? = some (Flt.fin o))
    (hsum : |o| + |((solo env frame_count s n inst).getD j (Flt.fin 0)).toRat| ≤ 1) :
    (data_callback_slot env frame_count inst st).2.output[j]? =
      some (Flt.fin (o + ((solo env frame_count s n inst).getD j (Flt.fin 0)).toRat)) := by
  cases hp : inst.sound with
  | none =>
    have h1 : data_callback_slot env frame_count inst st = (inst, st) := by
      simp [data_callback_slot, hp]
    have h2 : solo env frame_count s n inst = silence n := by
      simp [solo, data_callback_slot, hp, MixerRun.start]
    rw [h1, h2, List.getD_eq_getElem?_getD, silence_getElem? n j hj]
    simpa [Flt.toRat] using ho
  | some p =>
    have hsp := hs p hp
    have hsolo : solo env frame_count s n inst =
        (read_and_mix_pcm_frames_f32 env inst (s.sounds p) s.au_mix_temp (silence n)
          frame_count).output := by
      unfold solo
      rw [data_callback_slot_output env frame_count inst _ p hp]
      rfl
    have hunit : ∀ x ∈ solo env frame_count s n inst, Flt.InUnit x :=
      data_callback_slot_inUnit env frame_count inst _ (silence_inUnit n)
    rw [data_callback_slot_output env frame_count inst st p hp, hsp]
    obtain ⟨_, _, hrel⟩ := read_and_mix_loop_pair env hch inst frame_count frame_count 0
      (s.sounds p) st.au_mix_temp s.au_mix_temp st.output (silence n)
    rw [hsolo] at hsum hunit ⊢
    unfold read_and_mix_pcm_frames_f32 at hsum hunit ⊢
    rcases hrel j with ⟨e1, e2⟩ | ⟨_, sv, e1, e2⟩
    · rw [silence_getElem? n j hj] at e2
      rw [e1, ho, List.getD_eq_getElem?_getD, e2]
      simp [Flt.toRat]
    · rw [silence_getElem? n j hj] at e2
      rw [ho] at e1
      simp only [Option.map_some'] at e1 e2
      rw [List.getD_eq_getElem?_getD, e2] at hsum ⊢
      simp only [Option.getD_some] at hsum ⊢
      have hmem := hunit _ (List.getElem?_mem e2)
      obtain ⟨c, hc, _, _⟩ := hmem
      rw [hc] at hsum ⊢
      simp only [Flt.toRat] at hsum ⊢
      rw [e1, clip_add_no_clip o c sv hc hsum]

theorem data_callback_slot_other (env : Env) (frame_count : Nat) (inst : sound_inst_t)
    (st : MixerRun) (q : Nat) (hq : inst.sound ≠ some q) :
    (data_callback_slot env frame_count inst st).2.sounds q = st.sounds q := by
  cases hp : inst.sound with
  | none => simp [data_callback_slot, hp]
  | some p =>
    rw [data_callback_slot_sounds env frame_count inst st p hp]
    have hne : q ≠ p := fun h => hq (by rw [hp, h])
    rw [Function.update_noteq hne]

/-- All the slots, when no add clips: each output sample ends as the sample
before plus the sum of the contributions of the slots. -/
theorem data_callback_loop_sum (env : Env) (hch : env.AU_CHANNEL_COUNT = 1)
    (frame_count : Nat) (s : AudioState) (n j : Nat) (hj : j < n) :
    ∀ (slots : List sound_inst_t) (st : MixerRun) (o : ℚ),
      (slots.filterMap (fun inst => inst.sound)).Nodup →
      (∀ inst ∈ slots, ∀ p, inst.sound = some p → st.sounds p = s.sounds p) →
      st.output[j]? = some (Flt.fin o) →
      |o| + (slots.map (fun inst =>
          |((solo env frame_count s n inst).getD j (Flt.fin 0)).toRat|)).sum ≤ 1 →
      (data_callback_loop env frame_count slots st).2.output[j]? =
        some (Flt.fin (o + (slots.map (fun inst =>
          ((solo env frame_count s n inst).getD j (Flt.fin 0)).toRat)).sum)) := by
  intro slots
  induction slots with
  | nil =>
    intro st o _ _ ho _
    simpa [data_callback_loop] using ho
  | cons inst rest ih =>
    intro st o hnd hs ho hsum
    simp only [List.map_cons, List.sum_cons] at hsum ⊢
    have hrest_nonneg : 0 ≤ (rest.map (fun inst =>
        |((solo env frame_count s n inst).getD j (Flt.fin 0)).toRat|)).sum := by
      apply List.sum_nonneg
      intro x hx
      obtain ⟨i, _, rfl⟩ := List.mem_map.mp hx
      exact abs_nonneg _
    have hstep := data_callback_slot_sum env hch frame_count s n j hj inst st o
      (hs inst (List.mem_cons_self _ _)) ho (by linarith)
    have hnd2 : (rest.filterMap (fun inst => inst.sound)).Nodup := by
      cases hp : inst.sound with
      | none => simpa [List.filterMap_cons, hp] using hnd
      | some p =>
        have : (p :: rest.filterMap (fun inst => inst.sound)).Nodup := by
          simpa [List.filterMap_cons, hp] using hnd
        exact (List.nodup_cons.mp this).2
    have hs2 : ∀ inst2 ∈ rest, ∀ p2, inst2.sound = some p2 →
        (data_callback_slot env frame_count inst st).2.sounds p2 = s.sounds p2 := by
      intro inst2 hmem p2 hp2
      rw [data_callback_slot_other env frame_count inst st p2, hs inst2
        (List.mem_cons_of_mem _ hmem) p2 hp2]
      intro hp
      have : (p2 :: rest.filterMap (fun inst => inst.sound)).Nodup := by
        simpa [List.filterMap_cons, hp] using hnd
      exact (List.nodup_cons.mp this).1 (List.mem_filterMap.mpr ⟨inst2, hmem, hp2⟩)
    have hsum2 : |o + ((solo env frame_count s n inst).getD j (Flt.fin 0)).toRat| +
        (rest.map (fun inst =>
          |((solo env frame_count s n inst).getD j (Flt.fin 0)).toRat|)).sum ≤ 1 := by
      have := abs_add o ((solo env frame_count s n inst).getD j (Flt.fin 0)).toRat
      linarith
    have := ih _ _ hnd2 hs2 hstep hsum2
    simp only [data_callback_loop]
    rw [this, add_assoc]

/-- C2 (amended): with one channel, when the occupied slots reference distinct
sources, the samples of the output buffer lie in `[-1, 1]` and no add clips
(at every sample, the absolute value of the sample plus the absolute values
of the contributions of all the slots is at most `1`), `data_callback`
produces the same output buffer for every order of the slots. -/
theorem data_callback_perm_no_clip (env : Env) (s : AudioState) (output : List Flt)
    (frame_count : Nat) (slots2 : List sound_inst_t)
    (hch : env.AU_CHANNEL_COUNT = 1)
    (hperm : slots2.Perm s.au_active_sounds)
    (hdistinct : (s.au_active_sounds.filterMap (fun inst => inst.sound)).Nodup)
    (hout : ∀ x ∈ output, Flt.InUnit x)
    (hnoclip : ∀ j, j < output.length →
      |(output.getD j (Flt.fin 0)).toRat| + (s.au_active_sounds.map (fun inst =>
        |((solo env frame_count s output.length inst).getD j (Flt.fin 0)).toRat|)).sum ≤ 1) :
    (data_callback env { s with au_active_sounds := slots2 } output frame_count).2 =
      (data_callback env s output frame_count).2 := by
  apply List.ext_getElem?
  intro j
  show (data_callback_loop env frame_count slots2 (MixerRun.start s output)).2.output[j]? =
    (data_callback_loop env frame_count s.au_active_sounds (MixerRun.start s output)).2.output[j]?
  by_cases hj : j < output.length
  · obtain ⟨o, ho, _, _⟩ := hout _ (List.getElem_mem hj)
    have ho2 : (MixerRun.start s output).output[j]? = some (Flt.fin o) := by
      show output[j]? = _
      rw [List.getElem?_eq_getElem hj, ho]
    have hsum := hnoclip j hj
    rw [List.getD_eq_getElem _ _ hj, ho] at hsum
    simp only [Flt.toRat] at hsum
    have hsum2 : |o| + (slots2.map (fun inst =>
        |((solo env frame_count s output.length inst).getD j (Flt.fin 0)).toRat|)).sum ≤ 1 := by
      rw [(hperm.map _).sum_eq]
      exact hsum
    have hnd2 : (slots2.filterMap (fun inst => inst.sound)).Nodup :=
      ((hperm.filterMap _).nodup_iff).mpr hdistinct
    rw [data_callback_loop_sum env hch frame_count s output.length j hj slots2 _ o hnd2
        (fun _ _ _ _ => rfl) ho2 hsum2,
      data_callback_loop_sum env hch frame_count s output.length j hj s.au_active_sounds _ o
        hdistinct (fun _ _ _ _ => rfl) ho2 hsum,
      (hperm.map _).sum_eq]
  · have h1 := data_callback_loop_length env frame_count slots2 (MixerRun.start s output)
    have h2 := data_callback_loop_length env frame_count s.au_active_sounds
      (MixerRun.start s output)
    have h3 : (MixerRun.start s output).output.length = output.length := rfl
    rw [List.getElem?_eq_none_iff.mpr (by omega), List.getElem?_eq_none_iff.mpr (by omega)]

theorem data_callback_perm_no_clip_witness :
    (data_callback axisEnv
        { quietPool [0, 1] with au_active_sounds := (quietPool [1, 0]).au_active_sounds }
        (silence 2) 2).2 =
      (data_callback axisEnv (quietPool [0, 1]) (silence 2) 2).2 :=
  data_callback_perm_no_clip axisEnv (quietPool [0, 1]) (silence 2) 2
    (quietPool [1, 0]).au_active_sounds rfl (List.Perm.swap _ _ _)
    (by simp [quietPool, audioState, instAt, emptySlot])
    (silence_inUnit 2)
    (by
      intro j hj
      have hj2 : j < 2 := by simpa [silence] using hj
      interval_cases j <;>
      simp [solo, data_callback_slot, read_and_mix_pcm_frames_f32,
        read_and_mix_loop, read_frames, chunk_size, frame_cap, mini, quietPool, audioState,
        heapOf, bufferSound, instAt, emptySlot, axisEnv, silence, MixerRun.start, mix_samples,
        mix_volume, clip_add, store_floats, vec3.sub, Flt.add, Flt.mul, Flt.div, Flt.fminf,
        Flt.fmaxf, Flt.toRat] <;>
      norm_num [abs_of_pos])


/-- Why the amended C2 is stated for one channel.  With two channels a Buffer
read copies `frames_read` floats but `frames_read * 2` floats of the scratch
buffer are mixed, so a slot also adds what an earlier slot left in
`au_mix_temp`: the output depends on the slot order although nothing
clips. -/
theorem data_callback_stereo_scratch :
    (data_callback stereoEnv (stereoPool [0, 1]) (silence 4) 2).2 =
        [Flt.fin (3 / 8), Flt.fin (3 / 8), Flt.fin (1 / 2), Flt.fin (1 / 2)] ∧
      (data_callback stereoEnv (stereoPool [1, 0]) (silence 4) 2).2 =
        [Flt.fin (3 / 8), Flt.fin (3 / 8), Flt.fin (1 / 4), Flt.fin (1 / 4)] := by
  constructor <;>
  simp [data_callback, data_callback_loop, data_callback_slot, read_and_mix_pcm_frames_f32,
    read_and_mix_loop, read_frames, chunk_size, frame_cap, mini, stereoPool, audioState,
    heapOf, bufferSound, decodeSound, instAt, emptySlot, stereoEnv, axisEnv, silence,
    MixerRun.start, mix_samples, mix_volume, clip_add, store_floats, vec3.sub, Flt.add,
    Flt.mul, Flt.div, Flt.fminf, Flt.fmaxf, Function.update, ma_decoder_read_pcm_frames] <;>
  norm_num

/-! ## Backend selection -/

/-- C11: `audio_init`, called with no adapter and an unopened playback device
as at program start, and whatever the outcomes of context init, of the
spatial backend activation (on Windows builds) and of opening and starting
the generic device.  It returns true exactly when one path, and not the
other, is active afterwards; the two are never both active; with the spatial
backend active the generic device was never opened (no device call was
made); with the generic device active the adapter is deleted; it returns
false exactly when context init failed or neither the spatial backend nor
the generic device could be brought up, and then neither path is active. -/
theorem audio_init_one_path (env : InitEnv) (s : PlaybackState)
    (hadapter : s.isac_adapter = none)
    (hdevice : s.au_device = PlaybackDevice.uninitialised) :
    ((audio_init env s).1 = true ↔
        (isac_active (audio_init env s).2 ∧ ¬ generic_active (audio_init env s).2) ∨
        (generic_active (audio_init env s).2 ∧ ¬ isac_active (audio_init env s).2)) ∧
      ¬ (isac_active (audio_init env s).2 ∧ generic_active (audio_init env s).2) ∧
      (isac_active (audio_init env s).2 →
        (audio_init env s).2.au_device = PlaybackDevice.uninitialised ∧
        (audio_init env s).2.events = s.events ++
          [InitEvent.context_init true, InitEvent.isac_new,
            InitEvent.isac_activate IsacResult.succeeded]) ∧
      (generic_active (audio_init env s).2 → (audio_init env s).2.isac_adapter = none) ∧
      ((audio_init env s).1 = false ↔
        env.context_init_ok = false ∨
          ((env.windows = false ∨ env.isac_activate ≠ IsacResult.succeeded) ∧
            (env.device_init_ok = false ∨ env.device_start_ok = false))) ∧
      ((audio_init env s).1 = false →
        ¬ isac_active (audio_init env s).2 ∧ ¬ generic_active (audio_init env s).2) := by
  obtain ⟨w, c, r, d, st⟩ := env
  obtain ⟨adapter, device, name, events⟩ := s
  simp only at hadapter hdevice
  subst hadapter hdevice
  cases w <;> cases c <;> cases r <;> cases d <;> cases st <;>
    simp [audio_init, audio_init_generic, isac_active, generic_active]

theorem audio_init_one_path_witness :
    ((audio_init ⟨true, true, IsacResult.not_valid_state, true, true⟩ playbackStart).1 = true ∧
      generic_active
        (audio_init ⟨true, true, IsacResult.not_valid_state, true, true⟩ playbackStart).2 ∧
      (audio_init ⟨true, true, IsacResult.not_valid_state, true, true⟩
        playbackStart).2.isac_adapter = none) :=
  have h := audio_init_one_path ⟨true, true, IsacResult.not_valid_state, true, true⟩
    playbackStart rfl rfl
  have hg : generic_active
      (audio_init ⟨true, true, IsacResult.not_valid_state, true, true⟩ playbackStart).2 := rfl
  ⟨h.1.mpr (Or.inr ⟨hg, by unfold isac_active; decide⟩), hg, h.2.2.2.1 hg⟩

/-! ## The two chunk loops read alike -/

theorem read_and_mix_trace_fst (env : Env) (inst : sound_inst_t) (frame_count : Nat) :
    ∀ (fuel : Nat) (v : MixVars),
      (read_and_mix_trace env inst frame_count fuel v).1 =
        read_and_mix_loop env inst frame_count fuel v := by
  intro fuel
  induction fuel with
  | zero => intro v; rfl
  | succ fuel ih =>
    intro v
    simp only [read_and_mix_trace, read_and_mix_loop]
    split_ifs
    · rfl
    · rfl
    · exact ih _
    · rfl

theorem readDataForIsac_trace_fst (env : Env) (frame_count : Nat) :
    ∀ (fuel : Nat) (v : MixVars),
      (readDataForIsac_trace env frame_count fuel v).1 =
        readDataForIsac_loop env frame_count fuel v := by
  intro fuel
  induction fuel with
  | zero => intro v; rfl
  | succ fuel ih =>
    intro v
    simp only [readDataForIsac_trace, readDataForIsac_loop]
    split_ifs
    · rfl
    · rfl
    · exact ih _
    · rfl

/-- Started on the same sound and scratch buffer, whatever their output
buffers, the two loops make the same requests and end with the same count,
the same sound and the same scratch buffer. -/
theorem trace_pair (env : Env) (inst : sound_inst_t) (frame_count : Nat) :
    ∀ (fuel t : Nat) (snd : _sound_t) (tmp : Nat → Flt) (om oi : List Flt),
      (readDataForIsac_trace env frame_count fuel ⟨t, snd, tmp, oi⟩).2 =
          (read_and_mix_trace env inst frame_count fuel ⟨t, snd, tmp, om⟩).2 ∧
        (readDataForIsac_trace env frame_count fuel ⟨t, snd, tmp, oi⟩).1.total_frames_read =
          (read_and_mix_trace env inst frame_count fuel ⟨t, snd, tmp, om⟩).1.total_frames_read ∧
        (readDataForIsac_trace env frame_count fuel ⟨t, snd, tmp, oi⟩).1.sound =
          (read_and_mix_trace env inst frame_count fuel ⟨t, snd, tmp, om⟩).1.sound ∧
        (readDataForIsac_trace env frame_count fuel ⟨t, snd, tmp, oi⟩).1.au_mix_temp =
          (read_and_mix_trace env inst frame_count fuel ⟨t, snd, tmp, om⟩).1.au_mix_temp := by
  intro fuel
  induction fuel with
  | zero => intro t snd tmp om oi; exact ⟨rfl, rfl, rfl, rfl⟩
  | succ fuel ih =>
    intro t snd tmp om oi
    simp only [readDataForIsac_trace, read_and_mix_trace]
    split_ifs
    · exact ⟨rfl, rfl, rfl, rfl⟩
    · exact ⟨rfl, rfl, rfl, rfl⟩
    · obtain ⟨h1, h2, h3, h4⟩ := ih
        (t + (read_frames env snd tmp (chunk_size env frame_count t)).1)
        (read_frames env snd tmp (chunk_size env frame_count t)).2.2
        (read_frames env snd tmp (chunk_size env frame_count t)).2.1
        (mix_samples (read_frames env snd tmp (chunk_size env frame_count t)).2.1
          (mix_volume env inst) (t * env.AU_CHANNEL_COUNT)
          ((read_frames env snd tmp (chunk_size env frame_count t)).1 * env.AU_CHANNEL_COUNT)
          0 om)
        (copy_samples (read_frames env snd tmp (chunk_size env frame_count t)).2.1
          (t * env.AU_CHANNEL_COUNT)
          ((read_frames env snd tmp (chunk_size env frame_count t)).1 * env.AU_CHANNEL_COUNT)
          0 oi)
      refine ⟨?_, h2, h3, h4⟩
      simp only [h1]
      rfl
    · exact ⟨rfl, rfl, rfl, rfl⟩

theorem chunk_samples_getD_left (tmp : Nat → Flt) (n k : Nat) (rest : List Flt) (d : Flt)
    (hk : k < n) : ((List.range n).map tmp ++ rest).getD k d = tmp k := by
  rw [List.getD_append _ _ _ _ (by simpa using hk)]
  simp [List.getD_eq_getElem?_getD, List.getElem?_range hk]

theorem chunk_samples_getD_right (tmp : Nat → Flt) (n k : Nat) (rest : List Flt) (d : Flt)
    (hk : n ≤ k) : ((List.range n).map tmp ++ rest).getD k d = rest.getD (k - n) d := by
  rw [List.getD_append_right _ _ _ _ (by simpa using hk)]
  simp

theorem read_and_mix_trace_done (env : Env) (inst : sound_inst_t) (frame_count fuel : Nat)
    (v : MixVars) (h : ¬ v.total_frames_read < frame_count) :
    read_and_mix_trace env inst frame_count fuel v = (v, []) := by
  cases fuel with
  | zero => rfl
  | succ fuel => simp only [read_and_mix_trace]; rw [if_neg h]

theorem read_and_mix_trace_break (env : Env) (inst : sound_inst_t) (frame_count fuel : Nat)
    (v : MixVars) (h1 : v.total_frames_read < frame_count)
    (h2 : (read_frames env v.sound v.au_mix_temp
      (chunk_size env frame_count v.total_frames_read)).1 ≤ 1) :
    read_and_mix_trace env inst frame_count (fuel + 1) v =
      ({ v with
         sound := (read_frames env v.sound v.au_mix_temp
           (chunk_size env frame_count v.total_frames_read)).2.2
         au_mix_temp := (read_frames env v.sound v.au_mix_temp
           (chunk_size env frame_count v.total_frames_read)).2.1 },
       [ChunkRead.of env frame_count v]) := by
  simp only [read_and_mix_trace]
  rw [if_pos h1, if_pos h2]

/-- The variables of the mixing loop after an iteration that mixed a chunk. -/
theorem read_and_mix_trace_chunk (env : Env) (inst : sound_inst_t) (frame_count fuel : Nat)
    (v : MixVars) (h1 : v.total_frames_read < frame_count)
    (h2 : ¬ (read_frames env v.sound v.au_mix_temp
      (chunk_size env frame_count v.total_frames_read)).1 ≤ 1) :
    read_and_mix_trace env inst frame_count (fuel + 1) v =
      if (read_frames env v.sound v.au_mix_temp
          (chunk_size env frame_count v.total_frames_read)).1 <
          chunk_size env frame_count v.total_frames_read then
        ({ total_frames_read := v.total_frames_read +
             (read_frames env v.sound v.au_mix_temp
               (chunk_size env frame_count v.total_frames_read)).1
           sound := (read_frames env v.sound v.au_mix_temp
             (chunk_size env frame_count v.total_frames_read)).2.2
           au_mix_temp := (read_frames env v.sound v.au_mix_temp
             (chunk_size env frame_count v.total_frames_read)).2.1
           output := mix_samples (read_frames env v.sound v.au_mix_temp
               (chunk_size env frame_count v.total_frames_read)).2.1 (mix_volume env inst)
             (v.total_frames_read * env.AU_CHANNEL_COUNT)
             ((read_frames env v.sound v.au_mix_temp
               (chunk_size env frame_count v.total_frames_read)).1 * env.AU_CHANNEL_COUNT)
             0 v.output },
         [ChunkRead.of env frame_count v])
      else
        ((read_and_mix_trace env inst frame_count fuel
          { total_frames_read := v.total_frames_read +
              (read_frames env v.sound v.au_mix_temp
                (chunk_size env frame_count v.total_frames_read)).1
            sound := (read_frames env v.sound v.au_mix_temp
              (chunk_size env frame_count v.total_frames_read)).2.2
            au_mix_temp := (read_frames env v.sound v.au_mix_temp
              (chunk_size env frame_count v.total_frames_read)).2.1
            output := mix_samples (read_frames env v.sound v.au_mix_temp
                (chunk_size env frame_count v.total_frames_read)).2.1 (mix_volume env inst)
              (v.total_frames_read * env.AU_CHANNEL_COUNT)
              ((read_frames env v.sound v.au_mix_temp
                (chunk_size env frame_count v.total_frames_read)).1 * env.AU_CHANNEL_COUNT)
              0 v.output }).1,
         ChunkRead.of env frame_count v ::
          (read_and_mix_trace env inst frame_count fuel
            { total_frames_read := v.total_frames_read +
                (read_frames env v.sound v.au_mix_temp
                  (chunk_size env frame_count v.total_frames_read)).1
              sound := (read_frames env v.sound v.au_mix_temp
                (chunk_size env frame_count v.total_frames_read)).2.2
              au_mix_temp := (read_frames env v.sound v.au_mix_temp
                (chunk_size env frame_count v.total_frames_read)).2.1
              output := mix_samples (read_frames env v.sound v.au_mix_temp
                  (chunk_size env frame_count v.total_frames_read)).2.1 (mix_volume env inst)
                (v.total_frames_read * env.AU_CHANNEL_COUNT)
                ((read_frames env v.sound v.au_mix_temp
                  (chunk_size env frame_count v.total_frames_read)).1 * env.AU_CHANNEL_COUNT)
                0 v.output }).2) := by
  simp only [read_and_mix_trace]
  rw [if_pos h1, if_neg h2]

/-- The step of the induction in `read_and_mix_trace_output` and in
`readDataForIsac_trace_output`: `f` is what a write does with the old sample
and the sample read.  Given the output after one chunk (`out1`) and the
description of what the later chunks do to it, the description of the
whole. -/
theorem chunk_then_rest (f : Flt → Flt → Flt) (tmp : Nat → Flt) (a b T j : Nat)
    (out out1 outT : List Flt) (rest : List Flt) (hT : a + b ≤ T)
    (h1 : out1[j]? =
      if a + 0 ≤ j ∧ j < a + 0 + b then (out[j]?).map (fun o => f o (tmp (j - a)))
      else out[j]?)
    (hrest : outT[j]? =
      if a + b ≤ j ∧ j < T then
        (out1[j]?).map (fun o => f o (rest.getD (j - (a + b)) (Flt.fin 0)))
      else out1[j]?) :
    outT[j]? =
      if a ≤ j ∧ j < T then
        (out[j]?).map (fun o => f o
          (((List.range b).map tmp ++ rest).getD (j - a) (Flt.fin 0)))
      else out[j]? := by
  rw [hrest, h1]
  by_cases hj1 : a + 0 ≤ j ∧ j < a + 0 + b
  · rw [if_neg (by omega), if_pos hj1, if_pos (by omega),
      chunk_samples_getD_left _ _ _ _ _ (by omega)]
  · rw [if_neg hj1]
    by_cases hj2 : a + b ≤ j ∧ j < T
    · rw [if_pos hj2, if_pos (by omega), chunk_samples_getD_right _ _ _ _ _ (by omega)]
      have : j - a - b = j - (a + b) := by omega
      rw [this]
    · rw [if_neg hj2, if_neg (by omega)]

/-- What the mixing loop does to the output buffer, in terms of the samples
it read: a sample whose index lies between `total_frames_read *
AU_CHANNEL_COUNT` at the start and `total_frames_read * AU_CHANNEL_COUNT` at
the end gets the attenuated sample read added with clipping, every other
sample is left as it was. -/
theorem read_and_mix_trace_output (env : Env) (inst : sound_inst_t) (frame_count : Nat) :
    ∀ (fuel : Nat) (v : MixVars) (j : Nat),
      v.total_frames_read ≤
          (read_and_mix_trace env inst frame_count fuel v).1.total_frames_read ∧
        (read_and_mix_trace env inst frame_count fuel v).1.output[j]? =
          if v.total_frames_read * env.AU_CHANNEL_COUNT ≤ j ∧
              j < (read_and_mix_trace env inst frame_count fuel v).1.total_frames_read *
                env.AU_CHANNEL_COUNT then
            (v.output[j]?).map (fun o => clip_add o (Flt.mul
              ((samples_read (read_and_mix_trace env inst frame_count fuel v).2).getD
                (j - v.total_frames_read * env.AU_CHANNEL_COUNT) (Flt.fin 0))
              (mix_volume env inst)))
          else v.output[j]? := by
  intro fuel
  induction fuel with
  | zero =>
    intro v j
    refine ⟨le_refl _, ?_⟩
    show v.output[j]? = if _ ∧ j < v.total_frames_read * env.AU_CHANNEL_COUNT then _ else _
    rw [if_neg (by omega)]
  | succ fuel ih =>
    intro v j
    by_cases h1 : v.total_frames_read < frame_count
    · by_cases h2 : (read_frames env v.sound v.au_mix_temp
          (chunk_size env frame_count v.total_frames_read)).1 ≤ 1
      · rw [read_and_mix_trace_break env inst frame_count fuel v h1 h2]
        refine ⟨le_refl _, ?_⟩
        show v.output[j]? = if _ ∧ j < v.total_frames_read * env.AU_CHANNEL_COUNT then _ else _
        rw [if_neg (by omega)]
      · by_cases h3 : (read_frames env v.sound v.au_mix_temp
            (chunk_size env frame_count v.total_frames_read)).1 <
            chunk_size env frame_count v.total_frames_read
        · rw [read_and_mix_trace_chunk env inst frame_count fuel v h1 h2, if_pos h3]
          refine ⟨Nat.le_add_right _ _, ?_⟩
          have key := chunk_then_rest (fun o s => clip_add o (Flt.mul s (mix_volume env inst)))
            (read_frames env v.sound v.au_mix_temp
              (chunk_size env frame_count v.total_frames_read)).2.1
            (v.total_frames_read * env.AU_CHANNEL_COUNT)
            ((read_frames env v.sound v.au_mix_temp
              (chunk_size env frame_count v.total_frames_read)).1 * env.AU_CHANNEL_COUNT)
            (v.total_frames_read * env.AU_CHANNEL_COUNT +
              (read_frames env v.sound v.au_mix_temp
                (chunk_size env frame_count v.total_frames_read)).1 * env.AU_CHANNEL_COUNT)
            j v.output _ _ [] (le_refl _) (mix_samples_getElem? _ _ _ _ 0 v.output j)
            (by rw [if_neg (by omega)])
          simp only [samples_read, ChunkRead.of, Nat.add_mul]
          exact key
        · rw [read_and_mix_trace_chunk env inst frame_count fuel v h1 h2, if_neg h3]
          obtain ⟨ihle, ihout⟩ := ih
            { total_frames_read := v.total_frames_read +
                (read_frames env v.sound v.au_mix_temp
                  (chunk_size env frame_count v.total_frames_read)).1
              sound := (read_frames env v.sound v.au_mix_temp
                (chunk_size env frame_count v.total_frames_read)).2.2
              au_mix_temp := (read_frames env v.sound v.au_mix_temp
                (chunk_size env frame_count v.total_frames_read)).2.1
              output := mix_samples (read_frames env v.sound v.au_mix_temp
                  (chunk_size env frame_count v.total_frames_read)).2.1 (mix_volume env inst)
                (v.total_frames_read * env.AU_CHANNEL_COUNT)
                ((read_frames env v.sound v.au_mix_temp
                  (chunk_size env frame_count v.total_frames_read)).1 * env.AU_CHANNEL_COUNT)
                0 v.output } j
          simp only at ihle ihout
          refine ⟨le_trans (Nat.le_add_right _ _) ihle, ?_⟩
          have hT := Nat.mul_le_mul_right env.AU_CHANNEL_COUNT ihle
          rw [Nat.add_mul] at hT ihout
          have key := chunk_then_rest (fun o s => clip_add o (Flt.mul s (mix_volume env inst)))
            (read_frames env v.sound v.au_mix_temp
              (chunk_size env frame_count v.total_frames_read)).2.1
            (v.total_frames_read * env.AU_CHANNEL_COUNT)
            ((read_frames env v.sound v.au_mix_temp
              (chunk_size env frame_count v.total_frames_read)).1 * env.AU_CHANNEL_COUNT)
            _ j v.output _ _ _ hT (mix_samples_getElem? _ _ _ _ 0 v.output j) ihout
          simp only [samples_read, ChunkRead.of]
          exact key
    · rw [read_and_mix_trace_done env inst frame_count _ v h1]
      refine ⟨le_refl _, ?_⟩
      show v.output[j]? = if _ ∧ j < v.total_frames_read * env.AU_CHANNEL_COUNT then _ else _
      rw [if_neg (by omega)]

theorem set_const_getElem? (out : List Flt) (i j : Nat) (a : Flt) :
    (out.set i a)[j]? = if i = j then (out[j]?).map (fun _ => a) else out[j]? := by
  rw [List.getElem?_set]
  by_cases hij : i = j
  · subst hij
    by_cases hlt : i < out.length
    · simp [hlt, List.getElem?_eq_getElem hlt]
    · have hnone : out[i]? = none := by simp [List.getElem?_eq_none_iff]; omega
      simp [hlt, hnone]
  · simp [hij]

theorem copy_samples_getElem? (tmp : Nat → Flt) (base n : Nat) :
    ∀ (sample : Nat) (out : List Flt) (j : Nat),
      (copy_samples tmp base n sample out)[j]? =
        if base + sample ≤ j ∧ j < base + sample + n then
          (out[j]?).map (fun _ => tmp (j - base))
        else out[j]? := by
  induction n with
  | zero =>
    intro sample out j
    have : ¬ (base + sample ≤ j ∧ j < base + sample + 0) := by omega
    rw [if_neg this]
    rfl
  | succ n ih =>
    intro sample out j
    simp only [copy_samples]
    rw [ih, set_const_getElem?]
    by_cases h1 : base + sample = j
    · have h2 : ¬ (base + (sample + 1) ≤ j ∧ j < base + (sample + 1) + n) := by omega
      have h3 : base + sample ≤ j ∧ j < base + sample + (n + 1) := by omega
      have h4 : j - base = sample := by omega
      simp [h1, h2, h3, h4]
    · by_cases h2 : base + (sample + 1) ≤ j ∧ j < base + (sample + 1) + n
      · have h3 : base + sample ≤ j ∧ j < base + sample + (n + 1) := by omega
        simp [h1, h2, h3]
      · have h3 : ¬ (base + sample ≤ j ∧ j < base + sample + (n + 1)) := by omega
        simp [h1, h2, h3]

theorem readDataForIsac_trace_done (env : Env) (frame_count fuel : Nat)
    (v : MixVars) (h : ¬ v.total_frames_read < frame_count) :
    readDataForIsac_trace env frame_count fuel v = (v, []) := by
  cases fuel with
  | zero => rfl
  | succ fuel => simp only [readDataForIsac_trace]; rw [if_neg h]

theorem readDataForIsac_trace_break (env : Env) (frame_count fuel : Nat)
    (v : MixVars) (h1 : v.total_frames_read < frame_count)
    (h2 : (read_frames env v.sound v.au_mix_temp
      (chunk_size env frame_count v.total_frames_read)).1 ≤ 1) :
    readDataForIsac_trace env frame_count (fuel + 1) v =
      ({ v with
         sound := (read_frames env v.sound v.au_mix_temp
           (chunk_size env frame_count v.total_frames_read)).2.2
         au_mix_temp := (read_frames env v.sound v.au_mix_temp
           (chunk_size env frame_count v.total_frames_read)).2.1 },
       [ChunkRead.of env frame_count v]) := by
  simp only [readDataForIsac_trace]
  rw [if_pos h1, if_pos h2]

/-- The variables of the loop of `readDataForIsac` after an iteration that
copied a chunk. -/
theorem readDataForIsac_trace_chunk (env : Env) (frame_count fuel : Nat)
    (v : MixVars) (h1 : v.total_frames_read < frame_count)
    (h2 : ¬ (read_frames env v.sound v.au_mix_temp
      (chunk_size env frame_count v.total_frames_read)).1 ≤ 1) :
    readDataForIsac_trace env frame_count (fuel + 1) v =
      if (read_frames env v.sound v.au_mix_temp
          (chunk_size env frame_count v.total_frames_read)).1 <
          chunk_size env frame_count v.total_frames_read then
        ({ total_frames_read := v.total_frames_read +
             (read_frames env v.sound v.au_mix_temp
               (chunk_size env frame_count v.total_frames_read)).1
           sound := (read_frames env v.sound v.au_mix_temp
             (chunk_size env frame_count v.total_frames_read)).2.2
           au_mix_temp := (read_frames env v.sound v.au_mix_temp
             (chunk_size env frame_count v.total_frames_read)).2.1
           output := copy_samples (read_frames env v.sound v.au_mix_temp
               (chunk_size env frame_count v.total_frames_read)).2.1
             (v.total_frames_read * env.AU_CHANNEL_COUNT)
             ((read_frames env v.sound v.au_mix_temp
               (chunk_size env frame_count v.total_frames_read)).1 * env.AU_CHANNEL_COUNT)
             0 v.output },
         [ChunkRead.of env frame_count v])
      else
        ((readDataForIsac_trace env frame_count fuel
          { total_frames_read := v.total_frames_read +
              (read_frames env v.sound v.au_mix_temp
                (chunk_size env frame_count v.total_frames_read)).1
            sound := (read_frames env v.sound v.au_mix_temp
              (chunk_size env frame_count v.total_frames_read)).2.2
            au_mix_temp := (read_frames env v.sound v.au_mix_temp
              (chunk_size env frame_count v.total_frames_read)).2.1
            output := copy_samples (read_frames env v.sound v.au_mix_temp
                (chunk_size env frame_count v.total_frames_read)).2.1
              (v.total_frames_read * env.AU_CHANNEL_COUNT)
              ((read_frames env v.sound v.au_mix_temp
                (chunk_size env frame_count v.total_frames_read)).1 * env.AU_CHANNEL_COUNT)
              0 v.output }).1,
         ChunkRead.of env frame_count v ::
          (readDataForIsac_trace env frame_count fuel
            { total_frames_read := v.total_frames_read +
                (read_frames env v.sound v.au_mix_temp
                  (chunk_size env frame_count v.total_frames_read)).1
              sound := (read_frames env v.sound v.au_mix_temp
                (chunk_size env frame_count v.total_frames_read)).2.2
              au_mix_temp := (read_frames env v.sound v.au_mix_temp
                (chunk_size env frame_count v.total_frames_read)).2.1
              output := copy_samples (read_frames env v.sound v.au_mix_temp
                  (chunk_size env frame_count v.total_frames_read)).2.1
                (v.total_frames_read * env.AU_CHANNEL_COUNT)
                ((read_frames env v.sound v.au_mix_temp
                  (chunk_size env frame_count v.total_frames_read)).1 * env.AU_CHANNEL_COUNT)
                0 v.output }).2) := by
  simp only [readDataForIsac_trace]
  rw [if_pos h1, if_neg h2]

/-- What the loop of `readDataForIsac` does to the buffer of the source, in
terms of the samples it read: a sample whose index lies between
`total_frames_read * AU_CHANNEL_COUNT` at the start and `total_frames_read *
AU_CHANNEL_COUNT` at the end is replaced by the sample read, every other
sample is left as it was. -/
theorem readDataForIsac_trace_output (env : Env) (frame_count : Nat) :
    ∀ (fuel : Nat) (v : MixVars) (j : Nat),
      v.total_frames_read ≤
          (readDataForIsac_trace env frame_count fuel v).1.total_frames_read ∧
        (readDataForIsac_trace env frame_count fuel v).1.output[j]? =
          if v.total_frames_read * env.AU_CHANNEL_COUNT ≤ j ∧
              j < (readDataForIsac_trace env frame_count fuel v).1.total_frames_read *
                env.AU_CHANNEL_COUNT then
            (v.output[j]?).map (fun _ =>
              (samples_read (readDataForIsac_trace env frame_count fuel v).2).getD
                (j - v.total_frames_read * env.AU_CHANNEL_COUNT) (Flt.fin 0))
          else v.output[j]? := by
  intro fuel
  induction fuel with
  | zero =>
    intro v j
    refine ⟨le_refl _, ?_⟩
    show v.output[j]? = if _ ∧ j < v.total_frames_read * env.AU_CHANNEL_COUNT then _ else _
    rw [if_neg (by omega)]
  | succ fuel ih =>
    intro v j
    by_cases h1 : v.total_frames_read < frame_count
    · by_cases h2 : (read_frames env v.sound v.au_mix_temp
          (chunk_size env frame_count v.total_frames_read)).1 ≤ 1
      · rw [readDataForIsac_trace_break env frame_count fuel v h1 h2]
        refine ⟨le_refl _, ?_⟩
        show v.output[j]? = if _ ∧ j < v.total_frames_read * env.AU_CHANNEL_COUNT then _ else _
        rw [if_neg (by omega)]
      · by_cases h3 : (read_frames env v.sound v.au_mix_temp
            (chunk_size env frame_count v.total_frames_read)).1 <
            chunk_size env frame_count v.total_frames_read
        · rw [readDataForIsac_trace_chunk env frame_count fuel v h1 h2, if_pos h3]
          refine ⟨Nat.le_add_right _ _, ?_⟩
          have key := chunk_then_rest (fun _ s => s)
            (read_frames env v.sound v.au_mix_temp
              (chunk_size env frame_count v.total_frames_read)).2.1
            (v.total_frames_read * env.AU_CHANNEL_COUNT)
            ((read_frames env v.sound v.au_mix_temp
              (chunk_size env frame_count v.total_frames_read)).1 * env.AU_CHANNEL_COUNT)
            (v.total_frames_read * env.AU_CHANNEL_COUNT +
              (read_frames env v.sound v.au_mix_temp
                (chunk_size env frame_count v.total_frames_read)).1 * env.AU_CHANNEL_COUNT)
            j v.output _ _ [] (le_refl _) (copy_samples_getElem? _ _ _ 0 v.output j)
            (by rw [if_neg (by omega)])
          simp only [samples_read, ChunkRead.of, Nat.add_mul]
          exact key
        · rw [readDataForIsac_trace_chunk env frame_count fuel v h1 h2, if_neg h3]
          obtain ⟨ihle, ihout⟩ := ih
            { total_frames_read := v.total_frames_read +
                (read_frames env v.sound v.au_mix_temp
                  (chunk_size env frame_count v.total_frames_read)).1
              sound := (read_frames env v.sound v.au_mix_temp
                (chunk_size env frame_count v.total_frames_read)).2.2
              au_mix_temp := (read_frames env v.sound v.au_mix_temp
                (chunk_size env frame_count v.total_frames_read)).2.1
              output := copy_samples (read_frames env v.sound v.au_mix_temp
                  (chunk_size env frame_count v.total_frames_read)).2.1
                (v.total_frames_read * env.AU_CHANNEL_COUNT)
                ((read_frames env v.sound v.au_mix_temp
                  (chunk_size env frame_count v.total_frames_read)).1 * env.AU_CHANNEL_COUNT)
                0 v.output } j
          simp only at ihle ihout
          refine ⟨le_trans (Nat.le_add_right _ _) ihle, ?_⟩
          have hT := Nat.mul_le_mul_right env.AU_CHANNEL_COUNT ihle
          rw [Nat.add_mul] at hT ihout
          have key := chunk_then_rest (fun _ s => s)
            (read_frames env v.sound v.au_mix_temp
              (chunk_size env frame_count v.total_frames_read)).2.1
            (v.total_frames_read * env.AU_CHANNEL_COUNT)
            ((read_frames env v.sound v.au_mix_temp
              (chunk_size env frame_count v.total_frames_read)).1 * env.AU_CHANNEL_COUNT)
            _ j v.output _ _ _ hT (copy_samples_getElem? _ _ _ 0 v.output j) ihout
          simp only [samples_read, ChunkRead.of]
          exact key
    · rw [readDataForIsac_trace_done env frame_count _ v h1]
      refine ⟨le_refl _, ?_⟩
      show v.output[j]? = if _ ∧ j < v.total_frames_read * env.AU_CHANNEL_COUNT then _ else _
      rw [if_neg (by omega)]

/-- C13: started on the same source state and scratch buffer, for every
`frame_count` and whatever the two output buffers hold, `readDataForIsac`
and `read_and_mix_pcm_frames_f32` make the same sequence of read requests,
return the same total and leave the sound (decoder, buffer cursor, ring
buffer) and the scratch buffer in the same state.  `readDataForIsac` reports
the transformed position and the volume of the instance and stores the
`k`-th sample read, unscaled, at index `k` of the buffer of the source; the
mixer adds the `k`-th sample read times the attenuation to index `k` of the
output, with clipping; both leave the samples from index `total *
AU_CHANNEL_COUNT` on untouched. -/
theorem readDataForIsac_reads_like_mixer (env : Env) (inst : sound_inst_t) (snd : _sound_t)
    (tmp : Nat → Flt) (source_buffer output : List Flt) (frame_count : Nat) :
    readDataForIsac_reads env snd tmp source_buffer frame_count =
        read_and_mix_reads env inst snd tmp output frame_count ∧
      (readDataForIsac env inst snd tmp source_buffer frame_count).1.total_frames_read =
        (read_and_mix_pcm_frames_f32 env inst snd tmp output frame_count).total_frames_read ∧
      (readDataForIsac env inst snd tmp source_buffer frame_count).1.sound =
        (read_and_mix_pcm_frames_f32 env inst snd tmp output frame_count).sound ∧
      (readDataForIsac env inst snd tmp source_buffer frame_count).1.au_mix_temp =
        (read_and_mix_pcm_frames_f32 env inst snd tmp output frame_count).au_mix_temp ∧
      (readDataForIsac env inst snd tmp source_buffer frame_count).2 =
        (env.head_transform_point inst.position, inst.volume) ∧
      (∀ k, (readDataForIsac env inst snd tmp source_buffer frame_count).1.output[k]? =
        if k < (read_and_mix_pcm_frames_f32 env inst snd tmp output
            frame_count).total_frames_read * env.AU_CHANNEL_COUNT then
          (source_buffer[k]?).map (fun _ =>
            (samples_read (read_and_mix_reads env inst snd tmp output frame_count)).getD k
              (Flt.fin 0))
        else source_buffer[k]?) ∧
      (∀ k, (read_and_mix_pcm_frames_f32 env inst snd tmp output frame_count).output[k]? =
        if k < (read_and_mix_pcm_frames_f32 env inst snd tmp output
            frame_count).total_frames_read * env.AU_CHANNEL_COUNT then
          (output[k]?).map (fun o => clip_add o (Flt.mul
            ((samples_read (read_and_mix_reads env inst snd tmp output frame_count)).getD k
              (Flt.fin 0))
            (mix_volume env inst)))
        else output[k]?) := by
  obtain ⟨h1, h2, h3, h4⟩ := trace_pair env inst frame_count frame_count 0 snd tmp output
    source_buffer
  have hI := readDataForIsac_trace_fst env frame_count frame_count
    ⟨0, snd, tmp, source_buffer⟩
  have hM := read_and_mix_trace_fst env inst frame_count frame_count ⟨0, snd, tmp, output⟩
  have hIo := fun k => (readDataForIsac_trace_output env frame_count frame_count
    ⟨0, snd, tmp, source_buffer⟩ k).2
  have hMo := fun k => (read_and_mix_trace_output env inst frame_count frame_count
    ⟨0, snd, tmp, output⟩ k).2
  simp only [Nat.zero_mul, Nat.zero_le, true_and, Nat.sub_zero] at hIo hMo
  unfold readDataForIsac read_and_mix_pcm_frames_f32 readDataForIsac_reads read_and_mix_reads
  rw [← hI, ← hM]
  refine ⟨h1, h2, h3, h4, rfl, fun k => ?_, fun k => hMo k⟩
  rw [hIo k, h1, h2]

/-! ## Chunk bounds -/

theorem read_frames_le (env : Env) (snd : _sound_t) (tmp : Nat → Flt) (n : Nat) :
    (read_frames env snd tmp n).1 ≤ n := by
  unfold read_frames
  split
  · exact Nat.min_le_left _ _
  · exact Nat.min_le_left _ _
  · exact Nat.min_le_left _ _
  · exact Nat.zero_le _

theorem read_frames_scratch (env : Env) (snd : _sound_t) (tmp : Nat → Flt) (n k : Nat)
    (h1 : n * env.AU_CHANNEL_COUNT ≤ k) (h2 : n ≤ k) :
    (read_frames env snd tmp n).2.1 k = tmp k := by
  unfold read_frames
  split
  · have hle : min n (snd.decoder.pcm.length / env.AU_CHANNEL_COUNT) * env.AU_CHANNEL_COUNT ≤
        n * env.AU_CHANNEL_COUNT := Nat.mul_le_mul_right _ (Nat.min_le_left _ _)
    simp only [ma_decoder_read_pcm_frames, store_floats]
    rw [if_neg (by omega)]
  · have hle : min n snd.buffer.count ≤ n := Nat.min_le_left _ _
    simp only [ring_buffer_read, store_floats]
    rw [if_neg (by omega)]
  · have hle : mini n (snd.buffer.count - snd.buffer.cursor) ≤ n := Nat.min_le_left _ _
    simp only [store_floats]
    rw [if_neg (by omega)]
  · rfl

theorem chunk_size_eq (env : Env) (frame_count total : Nat) :
    chunk_size env frame_count total = min (frame_cap env) (frame_count - total) := by
  unfold chunk_size
  simp only
  split_ifs with h
  · exact (Nat.min_eq_right (Nat.le_of_lt h)).symm
  · exact (Nat.min_eq_left (by omega)).symm

theorem frame_cap_mul_le (env : Env) : frame_cap env * env.AU_CHANNEL_COUNT ≤ 4096 :=
  Nat.div_mul_le_self 4096 env.AU_CHANNEL_COUNT

/-- The bounds that hold for one request. -/
theorem chunkRead_of_bounds (env : Env) (frame_count : Nat) (v : MixVars)
    (h : v.total_frames_read < frame_count) :
    (ChunkRead.of env frame_count v).total_frames_read = v.total_frames_read ∧
      (ChunkRead.of env frame_count v).frames_to_read =
        min (frame_cap env) (frame_count - v.total_frames_read) ∧
      (ChunkRead.of env frame_count v).frames_read ≤
        (ChunkRead.of env frame_count v).frames_to_read ∧
      (ChunkRead.of env frame_count v).frames_read * env.AU_CHANNEL_COUNT ≤ 4096 ∧
      (v.total_frames_read + (ChunkRead.of env frame_count v).frames_read) *
        env.AU_CHANNEL_COUNT ≤ frame_count * env.AU_CHANNEL_COUNT := by
  have hle := read_frames_le env v.sound v.au_mix_temp
    (chunk_size env frame_count v.total_frames_read)
  have hcs := chunk_size_eq env frame_count v.total_frames_read
  have h1 : chunk_size env frame_count v.total_frames_read ≤ frame_cap env := by
    rw [hcs]; exact Nat.min_le_left _ _
  have h2 : chunk_size env frame_count v.total_frames_read ≤
      frame_count - v.total_frames_read := by
    rw [hcs]; exact Nat.min_le_right _ _
  refine ⟨rfl, hcs, hle, ?_, ?_⟩
  · exact le_trans (Nat.mul_le_mul_right _ (le_trans hle h1)) (frame_cap_mul_le env)
  · apply Nat.mul_le_mul_right
    show v.total_frames_read + (read_frames env v.sound v.au_mix_temp _).1 ≤ frame_count
    omega

/-- Every request of the mixing loop is within its bounds, the count never
exceeds `frame_count`, and the scratch buffer is never written from index
`4096` on. -/
theorem read_and_mix_trace_bounds (env : Env) (inst : sound_inst_t) (frame_count : Nat) :
    ∀ (fuel : Nat) (v : MixVars), v.total_frames_read ≤ frame_count →
      (∀ r ∈ (read_and_mix_trace env inst frame_count fuel v).2,
        r.frames_to_read = min (frame_cap env) (frame_count - r.total_frames_read) ∧
        r.frames_read ≤ r.frames_to_read ∧
        r.frames_read * env.AU_CHANNEL_COUNT ≤ 4096 ∧
        (r.total_frames_read + r.frames_read) * env.AU_CHANNEL_COUNT ≤
          frame_count * env.AU_CHANNEL_COUNT) ∧
      (read_and_mix_trace env inst frame_count fuel v).1.total_frames_read ≤ frame_count ∧
      ∀ k, 4096 ≤ k →
        (read_and_mix_trace env inst frame_count fuel v).1.au_mix_temp k = v.au_mix_temp k := by
  intro fuel
  induction fuel with
  | zero =>
    intro v hv
    exact ⟨fun r hr => by simp [read_and_mix_trace] at hr, hv, fun k _ => rfl⟩
  | succ fuel ih =>
    intro v hv
    by_cases h1 : v.total_frames_read < frame_count
    · obtain ⟨b0, b1, b2, b3, b4⟩ := chunkRead_of_bounds env frame_count v h1
      have hreq : ∀ r ∈ [ChunkRead.of env frame_count v],
          r.frames_to_read = min (frame_cap env) (frame_count - r.total_frames_read) ∧
          r.frames_read ≤ r.frames_to_read ∧
          r.frames_read * env.AU_CHANNEL_COUNT ≤ 4096 ∧
          (r.total_frames_read + r.frames_read) * env.AU_CHANNEL_COUNT ≤
            frame_count * env.AU_CHANNEL_COUNT := by
        intro r hr
        rw [List.mem_singleton.mp hr, b0]
        exact ⟨b1, b2, b3, b4⟩
      have hcs := chunk_size_eq env frame_count v.total_frames_read
      have hcap := frame_cap_mul_le env
      have hscratch : ∀ k, 4096 ≤ k →
          (read_frames env v.sound v.au_mix_temp
            (chunk_size env frame_count v.total_frames_read)).2.1 k = v.au_mix_temp k := by
        intro k hk
        have hc1 : chunk_size env frame_count v.total_frames_read ≤ frame_cap env := by
          rw [hcs]; exact Nat.min_le_left _ _
        have hc2 : frame_cap env ≤ 4096 := Nat.div_le_self _ _
        have hc3 := Nat.mul_le_mul_right env.AU_CHANNEL_COUNT hc1
        exact read_frames_scratch env v.sound v.au_mix_temp _ k (by omega) (by omega)
      have htot : v.total_frames_read + (read_frames env v.sound v.au_mix_temp
          (chunk_size env frame_count v.total_frames_read)).1 ≤ frame_count := by
        have hle := read_frames_le env v.sound v.au_mix_temp
          (chunk_size env frame_count v.total_frames_read)
        have : chunk_size env frame_count v.total_frames_read ≤
            frame_count - v.total_frames_read := by
          rw [hcs]; exact Nat.min_le_right _ _
        omega
      by_cases h2 : (read_frames env v.sound v.au_mix_temp
          (chunk_size env frame_count v.total_frames_read)).1 ≤ 1
      · rw [read_and_mix_trace_break env inst frame_count fuel v h1 h2]
        exact ⟨hreq, hv, hscratch⟩
      · by_cases h3 : (read_frames env v.sound v.au_mix_temp
            (chunk_size env frame_count v.total_frames_read)).1 <
            chunk_size env frame_count v.total_frames_read
        · rw [read_and_mix_trace_chunk env inst frame_count fuel v h1 h2, if_pos h3]
          exact ⟨hreq, htot, hscratch⟩
        · rw [read_and_mix_trace_chunk env inst frame_count fuel v h1 h2, if_neg h3]
          obtain ⟨i1, i2, i3⟩ := ih
            { total_frames_read := v.total_frames_read +
                (read_frames env v.sound v.au_mix_temp
                  (chunk_size env frame_count v.total_frames_read)).1
              sound := (read_frames env v.sound v.au_mix_temp
                (chunk_size env frame_count v.total_frames_read)).2.2
              au_mix_temp := (read_frames env v.sound v.au_mix_temp
                (chunk_size env frame_count v.total_frames_read)).2.1
              output := mix_samples (read_frames env v.sound v.au_mix_temp
                  (chunk_size env frame_count v.total_frames_read)).2.1 (mix_volume env inst)
                (v.total_frames_read * env.AU_CHANNEL_COUNT)
                ((read_frames env v.sound v.au_mix_temp
                  (chunk_size env frame_count v.total_frames_read)).1 * env.AU_CHANNEL_COUNT)
                0 v.output } htot
          refine ⟨?_, i2, fun k hk => ?_⟩
          · intro r hr
            rcases List.mem_cons.mp hr with h | h
            · exact hreq r (by rw [h]; exact List.mem_singleton.mpr rfl)
            · exact i1 r h
          · rw [i3 k hk]
            exact hscratch k hk
    · rw [read_and_mix_trace_done env inst frame_count _ v h1]
      exact ⟨fun r hr => by simp at hr, hv, fun k _ => rfl⟩

/-- The part of C12 that the code keeps.  For every `frame_count` and every
sound: each read request of `read_and_mix_pcm_frames_f32` asks for
`min(frame_cap, frames remaining)` frames and gets at most that many, so the
part of the scratch buffer used stays below index `4096` and nothing is
written to the scratch buffer from there on; the output buffer is not
written from index `frame_count * AU_CHANNEL_COUNT` on; the returned total
is at most `frame_count`; and the loop ends by its own exits, more
iterations allowed changing nothing. -/
theorem read_and_mix_in_bounds (env : Env) (inst : sound_inst_t) (snd : _sound_t)
    (tmp : Nat → Flt) (output : List Flt) (frame_count : Nat) :
    (∀ r ∈ read_and_mix_reads env inst snd tmp output frame_count,
        r.frames_to_read = min (frame_cap env) (frame_count - r.total_frames_read) ∧
        r.frames_read ≤ r.frames_to_read ∧
        r.frames_read * env.AU_CHANNEL_COUNT ≤ 4096 ∧
        (r.total_frames_read + r.frames_read) * env.AU_CHANNEL_COUNT ≤
          frame_count * env.AU_CHANNEL_COUNT) ∧
      (read_and_mix_pcm_frames_f32 env inst snd tmp output frame_count).total_frames_read ≤
        frame_count ∧
      (∀ k, 4096 ≤ k →
        (read_and_mix_pcm_frames_f32 env inst snd tmp output frame_count).au_mix_temp k =
          tmp k) ∧
      (∀ k, frame_count * env.AU_CHANNEL_COUNT ≤ k →
        (read_and_mix_pcm_frames_f32 env inst snd tmp output frame_count).output[k]? =
          output[k]?) ∧
      (∀ extra, read_and_mix_loop env inst frame_count (frame_count + extra)
          ⟨0, snd, tmp, output⟩ =
        read_and_mix_pcm_frames_f32 env inst snd tmp output frame_count) := by
  obtain ⟨b1, b2, b3⟩ := read_and_mix_trace_bounds env inst frame_count frame_count
    ⟨0, snd, tmp, output⟩ (Nat.zero_le _)
  have hM := read_and_mix_trace_fst env inst frame_count frame_count ⟨0, snd, tmp, output⟩
  have hMo := fun k => (read_and_mix_trace_output env inst frame_count frame_count
    ⟨0, snd, tmp, output⟩ k).2
  unfold read_and_mix_pcm_frames_f32 read_and_mix_reads
  rw [← hM]
  refine ⟨b1, b2, b3, fun k hk => ?_, fun extra => ?_⟩
  · rw [hMo k, if_neg]
    intro hc
    have := Nat.mul_le_mul_right env.AU_CHANNEL_COUNT b2
    simp only at hc
    omega
  · rw [hM]
    exact read_and_mix_loop_fuel env inst frame_count frame_count _ extra (by simp)

/-- C12 (evaluation at the failing input): `read_and_mix_pcm_frames_f32` with
`frame_count = 1` on a Buffer-variant sound that holds two frames.  The one
read request asks for one frame and the buffer delivers it in full, but the
call returns `0`, not `frame_count`, and the output stays silent. -/
theorem full_chunk_not_counted :
    read_and_mix_reads axisEnv (instAt 0 1 1) (bufferSound [1 / 2, 1 / 2])
        (fun _ => Flt.fin 0) (silence 1) 1 =
      [{ total_frames_read := 0, frames_to_read := 1, frames_read := 1,
         samples := [Flt.fin (1 / 2)] }] ∧
      (read_and_mix_pcm_frames_f32 axisEnv (instAt 0 1 1) (bufferSound [1 / 2, 1 / 2])
        (fun _ => Flt.fin 0) (silence 1) 1).total_frames_read = 0 ∧
      (read_and_mix_pcm_frames_f32 axisEnv (instAt 0 1 1) (bufferSound [1 / 2, 1 / 2])
        (fun _ => Flt.fin 0) (silence 1) 1).output = silence 1 := by
  simp [read_and_mix_reads, read_and_mix_trace, ChunkRead.of, read_and_mix_pcm_frames_f32,
    read_and_mix_loop, read_frames, chunk_size, frame_cap, mini, bufferSound, instAt,
    axisEnv, silence, store_floats, List.range_succ]

end sk
